import Mathlib

/-!
# Brand-pulse job-run/ingestion pipeline: a shallow embedding

This file embeds the core of the brand-mention collection pipeline
(`scraper-jobs`, `mentions`, `sentiment`, `ai-tagging` modules) in Lean and
proves/refutes the specification claims about it.

Conventions of the embedding:
* Machine integers of JavaScript are modelled with `Int`/`Nat`; the 32-bit
  truncation performed by JS bitwise operators is explicit (`toInt32`).
* JS `undefined`/`null` string fields are `Option String`; JS truthiness on
  strings (where `""` is falsy) is modelled by the `jsOr*` helpers.
* The wall clock (`Date.now()` / `new Date().toISOString()`) is an explicit
  `now : Nat` parameter; timestamps are `Nat`.
* The relational store (Supabase) is a record of lists; `upsert` with
  `ignoreDuplicates: false` follows PostgREST `resolution=merge-duplicates`
  semantics: a conflicting row is updated in place and every proposed row is
  returned to the caller.
* External collaborators (Apify dataset fetch/run start, the OpenAI calls,
  `new Date(...)` parsing) are explicit function parameters.
-/

namespace BrandPulse

/-! ## JS string/number helpers -/

/-- JS `a || b` on optional strings: `undefined`/`null` and `""` are falsy. -/
def jsOrS (a b : Option String) : Option String :=
  match a with
  | some s => if s = "" then b else some s
  | none => b

/-- JS `a || d` producing a string default: falsy `a` yields `d`. -/
def jsOrDefault (a : Option String) (d : String) : String :=
  match a with
  | some s => if s = "" then d else s
  | none => d

/-- JS coercion `x || ''` at the end of a string chain (`undefined → ""`). -/
def jsText (a : Option String) : String := a.getD ""

/-- JS `a || b` on optional numbers: `undefined`/`null` and `0` are falsy. -/
def jsOrN (a b : Option Nat) : Option Nat :=
  match a with
  | some n => if n = 0 then b else some n
  | none => b

/-- JS `x || undefined`: collapses a falsy string to `undefined`. -/
def jsOrUndefined (a : Option String) : Option String :=
  match a with
  | some s => if s = "" then none else some s
  | none => none

/-- Is an optional string falsy in JS (`undefined`, `null` or `""`)? -/
def falsyS (a : Option String) : Bool :=
  match a with
  | some s => s == ""
  | none => true

/-! ## `simpleHash` (mentions.service.ts, lines 455-463)

JS source:
```
let hash = 0;
for (let i = 0; i < str.length; i++) {
  const char = str.charCodeAt(i);
  hash = ((hash << 5) - hash) + char;
  hash = hash & hash; // Convert to 32-bit integer
}
return Math.abs(hash).toString(36);
```
`<<` and `&` truncate to signed 32-bit. For the characters that occur here
(BMP code points) `charCodeAt` agrees with the code point `Char.toNat`. -/

/-- Signed 32-bit truncation (JS `ToInt32`). -/
def toInt32 (n : Int) : Int := (n + 2 ^ 31) % 2 ^ 32 - 2 ^ 31

/-- One step of the hash loop: `hash = ((hash << 5) - hash + char) & -1`. -/
def hashStep (h : Int) (c : Nat) : Int := toInt32 (toInt32 (h * 32) - h + c)

/-- The 32-bit hash accumulated over the string. -/
def hash32 (s : String) : Int :=
  s.data.foldl (fun h c => hashStep h c.toNat) 0

/-- Base-36 digit (`0-9a-z`), as produced by JS `Number.prototype.toString(36)`. -/
def digit36 (n : Nat) : Char :=
  if n < 10 then Char.ofNat (48 + n) else Char.ofNat (87 + n)

/-- Fuelled base-36 digit expansion (fuel `n + 1` always suffices). -/
def toBase36Core : Nat → Nat → List Char → List Char
  | 0, _, acc => acc
  | fuel + 1, n, acc =>
    if n = 0 then acc else toBase36Core fuel (n / 36) (digit36 (n % 36) :: acc)

/-- JS `n.toString(36)` for a non-negative integer. -/
def toBase36 (n : Nat) : String :=
  if n = 0 then "0" else String.mk (toBase36Core (n + 1) n [])

/-- `simpleHash` of mentions.service.ts: `Math.abs(hash).toString(36)`. -/
def simpleHash (s : String) : String := toBase36 (hash32 s).natAbs

/-! ## The URL patterns of `generateSourceId` (mentions.service.ts, 432-450)

The JS method tries, in order, the regexes
`/\/reviews\/([^\/\?]+)/`, `/\/posts\/([^\/\?]+)/`,
`/\/([a-zA-Z0-9_-]+)$/`, `/id=([^&]+)/` and returns the first capture.
Each regex is simple enough to implement directly:

* the first, second and fourth find the leftmost occurrence of a literal
  marker that is followed by at least one character outside the stop set and
  capture the maximal such block;
* the third captures the maximal trailing run of `[a-zA-Z0-9_-]` characters
  provided the character just before the run is `/`. -/

/-- Leftmost occurrence of `marker` followed by a non-empty maximal block of
characters on which `stop` is false; returns the block. -/
def captureAfter (marker : List Char) (stop : Char → Bool) : List Char → Option String
  | [] => none
  | c :: cs =>
    if marker.isPrefixOf (c :: cs) then
      let cap := ((c :: cs).drop marker.length).takeWhile (fun d => !(stop d))
      if cap.isEmpty then captureAfter marker stop cs else some (String.mk cap)
    else captureAfter marker stop cs

/-- The character class `[a-zA-Z0-9_-]`. -/
def isWordChar (c : Char) : Bool := c.isAlphanum || c == '_' || c == '-'

/-- Capture of `/\/([a-zA-Z0-9_-]+)$/`: the maximal trailing run of word
characters, provided it is non-empty and preceded by `/`. -/
def trailingSegment (s : List Char) : Option String :=
  let run := (s.reverse.takeWhile isWordChar).reverse
  if run.isEmpty then none
  else
    match (s.take (s.length - run.length)).getLast? with
    | some c => if c = '/' then some (String.mk run) else none
    | none => none

/-- Stop set `[\/\?]` of the first two URL patterns. -/
def stopSlashQuestion (c : Char) : Bool := c == '/' || c == '?'

/-- `generateSourceId(source, index)` of mentions.service.ts. The call
`Date.now()` on the empty-source path is the explicit parameter `now`. -/
def generateSourceId (source : String) (index : Nat) (now : Nat) : String :=
  if source = "" then "generated_" ++ toString now ++ "_" ++ toString index
  else
    match captureAfter "/reviews/".data stopSlashQuestion source.data with
    | some v => v
    | none =>
      match captureAfter "/posts/".data stopSlashQuestion source.data with
      | some v => v
      | none =>
        match trailingSegment source.data with
        | some v => v
        | none =>
          match captureAfter "id=".data (fun c => c == '&') source.data with
          | some v => v
          | none => "hash_" ++ simpleHash source ++ "_" ++ toString index

/-! ## Raw provider items and canonical mentions

`ApifyDatasetItem` is an open record in the source; the model keeps the
fields that `transformApifyDataToMentions`, `buildMetadata` and the
Instagram chaining read. String fields are optional (absent = `undefined`),
numeric fields likewise. -/

structure ApifyItem where
  id : Option String := none
  reviewId : Option String := none
  postId : Option String := none
  cid : Option String := none
  url : Option String := none
  postUrl : Option String := none
  videoWebUrl : Option String := none
  shortCode : Option String := none
  title : Option String := none
  name : Option String := none
  text : Option String := none
  reviewText : Option String := none
  content : Option String := none
  description : Option String := none
  author : Option String := none
  reviewer : Option String := none
  username : Option String := none
  ownerUsername : Option String := none
  uniqueId : Option String := none
  avatarThumbnail : Option String := none
  ownerProfilePicUrl : Option String := none
  authorUrl : Option String := none
  profileUrl : Option String := none
  followers : Option Nat := none
  followerCount : Option Nat := none
  language : Option String := none
  timestamp : Option String := none
  publishedAt : Option String := none
  createdAt : Option String := none
  date : Option String := none
  createTimeISO : Option String := none
  createTime : Option String := none
  deriving Repr, DecidableEq

/-- A normalized mention candidate (the object literal built by
`transformApifyDataToMentions`). `buildMetadata` always embeds the whole raw
item as `platform_data` and every other metadata field is computed from that
item and the source type, so the model carries the raw item itself as the
metadata bag. -/
structure MentionCandidate where
  tenant_id : String
  brand_id : String
  job_run_id : Nat
  source_type : String
  source_url : Option String
  source_id : String
  title : Option String
  content : String
  author : Option String
  author_url : Option String
  author_followers : Option Nat
  published_at : Option String
  language : String
  platform_data : ApifyItem
  deriving Repr, DecidableEq

/-- Run status values (`scraper_runs.status`). -/
inductive RunStatus
  | scheduled
  | running
  | completed
  | failed
  deriving Repr, DecidableEq

/-- The open metadata bag of a scraper run, restricted to the keys the core
reads or writes. JS object spread `{...metadata, k: v}` is structure update;
an absent key is the field default. -/
structure RunMetadata where
  webhook_url : Option String := none
  triggered_manually : Bool := false
  triggered_automatically : Bool := false
  apify_run_id : Option String := none
  apify_actor_id : Option String := none
  apify_webhook_received : Bool := false
  webhook_event : Option String := none
  webhook_received_at : Option Nat := none
  data_processed : Bool := false
  data_processed_at : Option Nat := none
  data_processing_error : Option String := none
  data_processing_failed_at : Option Nat := none
  is_comments_scraper : Bool := false
  parent_posts_run_id : Option Nat := none
  parent_apify_run_id : Option String := none
  post_urls : List String := []
  comments_scraper_triggered : Bool := false
  comments_run_id : Option Nat := none
  comments_apify_run_id : Option String := none
  post_urls_found : Option Nat := none
  comments_scraper_error : Option String := none
  comments_scraper_failed_at : Option Nat := none
  deriving Repr, DecidableEq

/-- A `scraper_runs` row. -/
structure ScraperRun where
  id : Nat
  job_id : Nat
  tenant_id : String
  status : RunStatus
  apify_run_id : Option String := none
  started_at : Option Nat := none
  finished_at : Option Nat := none
  error_message : Option String := none
  items_found : Option Nat := none
  items_processed : Option Nat := none
  items_failed : Option Nat := none
  updated_at : Option Nat := none
  metadata : RunMetadata := {}
  deriving Repr, DecidableEq

/-- A `scraper_jobs` row (the fields the core reads). `config` is opaque to
the core except for `max_comments_per_post`, which the Instagram chaining
reads. -/
structure ScraperJob where
  id : Nat
  tenant_id : String
  name : String
  brand_id : String
  source_type : String
  is_active : Bool := true
  config_max_comments_per_post : Option Nat := none
  next_run_at : Option Nat := none
  deriving Repr, DecidableEq

/-! ## Mention normalization (`transformApifyDataToMentions`, 121-169) -/

/-- `parseDate` (mentions.service.ts, 468-478): falsy input gives `null`;
otherwise `new Date(input)`, modelled by the platform parser `p`, which
returns `none` on an invalid date and the ISO string otherwise. -/
def parseDate (p : String → Option String) (a : Option String) : Option String :=
  match a with
  | none => none
  | some s => if s = "" then none else p s

/-- Source-id derivation of the generic branch (mentions.service.ts, 130-131):
`item.id || item.reviewId || item.postId ||
 generateSourceId(item.url || item.postUrl || item.title || '', index)`. -/
def sourceIdGeneric (item : ApifyItem) (index now : Nat) : String :=
  jsOrDefault (jsOrS (jsOrS item.id item.reviewId) item.postId)
    (generateSourceId (jsText (jsOrS (jsOrS item.url item.postUrl) item.title)) index now)

/-- Source-id derivation of the TikTok branch (mentions.service.ts, 128):
`item.cid || item.id || generateSourceId(item.videoWebUrl || item.url || '', index)`. -/
def sourceIdTiktok (item : ApifyItem) (index now : Nat) : String :=
  jsOrDefault (jsOrS item.cid item.id)
    (generateSourceId (jsText (jsOrS item.videoWebUrl item.url)) index now)

/-- Is the job's source type handled by the TikTok branch? -/
def isTiktokSource (sourceType : String) : Bool :=
  sourceType == "tiktok_comments" || sourceType == "tiktok"

/-- The mention candidate built for one raw item at position `index`
(the body of the `map` in `transformApifyDataToMentions`). -/
def mkMentionCandidate (p : String → Option String) (now : Nat)
    (run : ScraperRun) (job : ScraperJob) (index : Nat) (item : ApifyItem) :
    MentionCandidate :=
  let tk := isTiktokSource job.source_type
  { tenant_id := run.tenant_id
    brand_id := job.brand_id
    job_run_id := run.id
    source_type := job.source_type
    source_url := if tk then jsOrS item.videoWebUrl item.url
                  else jsOrS item.postUrl item.url
    source_id := if tk then sourceIdTiktok item index now
                 else sourceIdGeneric item index now
    title := jsOrS item.title item.name
    content := jsText (jsOrS (jsOrS (jsOrS item.text item.reviewText) item.content)
        item.description)
    author := if tk then jsOrS item.uniqueId item.username
              else jsOrS (jsOrS (jsOrS item.ownerUsername item.author) item.reviewer)
                item.username
    author_url := if tk then item.avatarThumbnail
                  else jsOrS (jsOrS item.ownerProfilePicUrl item.authorUrl) item.profileUrl
    author_followers := jsOrN item.followers item.followerCount
    published_at := jsOrUndefined (if tk then
        parseDate p (jsOrS (jsOrS (jsOrS (jsOrS (jsOrS item.createTimeISO item.createTime)
          item.timestamp) item.publishedAt) item.createdAt) item.date)
      else
        parseDate p (jsOrS (jsOrS (jsOrS item.timestamp item.publishedAt) item.createdAt)
          item.date))
    language := jsOrDefault item.language "en"
    platform_data := item }

/-- JS whitespace as far as it occurs in provider payloads (ASCII). -/
def isJsSpace (c : Char) : Bool :=
  c == ' ' || c == '\t' || c == '\n' || c == '\r'

/-- `String.prototype.trim()`: strip whitespace on both ends. -/
def jsTrim (s : String) : String :=
  String.mk (((s.data.dropWhile isJsSpace).reverse.dropWhile isJsSpace).reverse)

/-- The filter at the end of the transform:
`mention.content && mention.content.trim().length > 0`. -/
def hasContent (m : MentionCandidate) : Bool :=
  !(m.content == "") && !(jsTrim m.content == "")

/-- `transformApifyDataToMentions(apifyData, scraperRun)`: map each raw item
with its position, then drop items with empty canonical content. -/
def transformApifyDataToMentions (p : String → Option String) (now : Nat)
    (apifyData : List ApifyItem) (run : ScraperRun) (job : ScraperJob) :
    List MentionCandidate :=
  (apifyData.enum.map (fun pr => mkMentionCandidate p now run job pr.1 pr.2)).filter
    hasContent

/-! ## The relational store -/

/-- A persisted `scraped_mentions` row: a candidate plus its generated id. -/
structure MentionRow extends MentionCandidate where
  id : Nat
  deriving Repr, DecidableEq

/-- A `sentiment_analysis` row (`createSentimentAnalysis`,
sentiment.service.ts 172-195). -/
structure SentimentRow where
  mention_id : Nat
  tenant_id : String
  sentiment : String
  confidence : Rat
  reasoning : Option String
  ai_model : String
  ai_provider : String
  analysis_version : String
  deriving Repr, DecidableEq

/-- A `mention_tags` row (`storeMentionTag`, ai-tagging.service.ts 118-186).
`findOrCreateCategory`/`findOrCreateIntent` resolve the AI-returned names to
row ids; the model uses the names themselves as the ids. -/
structure TagRow where
  mention_id : Nat
  tenant_id : String
  category_id : String
  intent_id : String
  priority : String
  urgency_score : Rat
  confidence : Rat
  deriving Repr, DecidableEq

/-- The relational store. `nextRunId`/`nextMentionId` model the generated
primary keys of inserted rows. -/
structure Store where
  jobs : List ScraperJob := []
  runs : List ScraperRun := []
  mentions : List MentionRow := []
  sentiments : List SentimentRow := []
  tags : List TagRow := []
  nextRunId : Nat := 0
  nextMentionId : Nat := 0
  deriving Repr, DecidableEq

/-- `.update(...).eq('id', rid)` over `scraper_runs`. -/
def updateRun (s : Store) (rid : Nat) (f : ScraperRun → ScraperRun) : Store :=
  { s with runs := s.runs.map (fun r => if r.id == rid then f r else r) }

/-- `.eq('apify_run_id', h).single()`: exactly one matching row, else an
error (treated as not-found by the callers modelled here). -/
def findRunByApifyId (s : Store) (h : String) : Option ScraperRun :=
  match s.runs.filter (fun r => r.apify_run_id == some h) with
  | [r] => some r
  | _ => none

/-- The embedded `scraper_jobs` record joined onto a run by the webhook
lookup. -/
def findJobById (s : Store) (jid : Nat) : Option ScraperJob :=
  s.jobs.find? (fun j => j.id == jid)

/-- Do a stored row and a candidate collide on the uniqueness key
`(tenant_id, source_type, source_id)`? -/
def mentionKeyMatches (r : MentionRow) (c : MentionCandidate) : Bool :=
  r.tenant_id == c.tenant_id && r.source_type == c.source_type &&
    r.source_id == c.source_id

/-! ## Ingestion writer (`insertMentions`, mentions.service.ts 261-296)

The source performs one
`upsert(mentions, { onConflict: 'tenant_id,source_type,source_id',
ignoreDuplicates: false }).select('*')`.
`ignoreDuplicates: false` is PostgREST `resolution=merge-duplicates`, i.e.
`INSERT ... ON CONFLICT (key) DO UPDATE`: a conflicting proposed row
overwrites the stored row (keeping its id) instead of being skipped, and
`RETURNING *` hands back every proposed row — the updated ones included.
The model processes proposed rows in order. -/

def upsertMentionRows : Store → List MentionCandidate → Store × List MentionRow
  | s, [] => (s, [])
  | s, c :: cs =>
    match s.mentions.find? (fun r => mentionKeyMatches r c) with
    | some r0 =>
      let merged : MentionRow := { c with id := r0.id }
      let s1 := { s with
        mentions := s.mentions.map (fun r => if r.id == r0.id then merged else r) }
      let rec2 := upsertMentionRows s1 cs
      (rec2.1, merged :: rec2.2)
    | none =>
      let row : MentionRow := { c with id := s.nextMentionId }
      let s1 := { s with mentions := s.mentions ++ [row],
                         nextMentionId := s.nextMentionId + 1 }
      let rec2 := upsertMentionRows s1 cs
      (rec2.1, row :: rec2.2)

/-- `insertMentions`: the early return on an empty list skips the database
call; otherwise the single upsert above. -/
def insertMentions (s : Store) (mentions : List MentionCandidate) :
    Store × List MentionRow :=
  if mentions.isEmpty then (s, []) else upsertMentionRows s mentions

/-- `updateScraperRunStats(runId, totalItems, insertedItems)`
(mentions.service.ts 408-427). -/
def updateScraperRunStats (now : Nat) (rid : Nat) (totalItems insertedItems : Nat)
    (s : Store) : Store :=
  updateRun s rid (fun r => { r with
    items_found := some totalItems
    items_processed := some insertedItems
    items_failed := some (totalItems - insertedItems)
    updated_at := some now })

/-! ## One ingestion pass (`processApifyRunData`, mentions.service.ts 26-116)

The pass is recorded as a trace of the externally visible steps, in program
order: the mention upsert, the `setImmediate` scheduling of the sentiment and
tagging fan-out (performed synchronously inside
`triggerSentimentAnalysis`/`triggerAITagging` before the stats update is
awaited), and the run-stats update. -/

inductive Event
  | mentionsUpserted (count : Nat)
  | sentimentScheduled (mentionIds : List Nat)
  | taggingScheduled (mentionIds : List Nat)
  | statsUpdated (runId found processed failed : Nat)
  deriving Repr, DecidableEq

/-- The external collaborators of the pipeline. -/
structure ApifyEnv where
  /-- `apifyService.getRunData(apifyRunId)`: the dataset, or a thrown error. -/
  getRunData : String → Except String (List ApifyItem)
  /-- `apifyService.startScraperRun(sourceType, config, webhookUrl)`:
  the started run `{id, actId}`, or a thrown error. The config forwarded by
  the chaining is its `startUrls` list plus the comment limits. -/
  startScraperRun : String → List String → Nat → Option String →
    Except String (String × Option String)
  /-- The platform date parser behind `new Date(...)`. -/
  dateParse : String → Option String

/-- `processApifyRunData(scraperRun)`. The embedded job record
(`scraperRun.scraper_jobs`) is the explicit `job` argument. Errors thrown
before any write (missing apify run id, dataset fetch failure) surface as
`.error`; an empty dataset returns with no writes. -/
def processApifyRunData (env : ApifyEnv) (now : Nat) (run : ScraperRun)
    (job : ScraperJob) (s : Store) : Except String (Store × List Event) :=
  match run.apify_run_id with
  | none => .error "No Apify run ID found in scraper run record"
  | some aid =>
    match env.getRunData aid with
    | .error e => .error e
    | .ok apifyData =>
      if apifyData.isEmpty then .ok (s, [])
      else
        let mentions := transformApifyDataToMentions env.dateParse now apifyData run job
        let ins := insertMentions s mentions
        let upsertEvents := if mentions.isEmpty then []
          else [Event.mentionsUpserted ins.2.length]
        let schedEvents := if ins.2.length > 0 then
            [Event.sentimentScheduled (ins.2.map (fun m => m.id)),
             Event.taggingScheduled (ins.2.map (fun m => m.id))]
          else []
        let found := apifyData.length
        let processed := ins.2.length
        let s2 := updateScraperRunStats now run.id found processed ins.1
        .ok (s2, upsertEvents ++ schedEvents ++
          [Event.statsUpdated run.id found processed (found - processed)])

/-! ## Completion gateway (`apify-webhook.controller.ts`) -/

/-- The transport outcome of `handleWebhook`: a 2xx JSON body
`{status, message}`, or a thrown `BadRequestException` (4xx). -/
inductive HandlerOutcome
  | ok (status message : String)
  | badRequest (message : String)
  deriving Repr, DecidableEq

/-- The webhook payload after transport decoding. `eventType` and
`eventData.actorRunId` are `none` when the corresponding key is absent. -/
structure WebhookPayload where
  eventType : Option String := none
  actorRunId : Option String := none
  deriving Repr, DecidableEq

/-- The structural validation at the top of `handleWebhook`:
`!payload.eventType || !payload.eventData?.actorRunId` throws `BadRequest`. -/
def structurallyValid (p : WebhookPayload) : Bool :=
  !(falsyS p.eventType) && !(falsyS p.actorRunId)

/-- The error-path metadata update of `processCompletedRun` (controller
164-174): spreads the run record fetched at the top of the handler (not the
current row), adds the processing-error flag and timestamp. -/
def recordProcessingError (now : Nat) (run : ScraperRun) (e : String) (s : Store) :
    Store :=
  updateRun s run.id (fun r => { r with
    updated_at := some now
    metadata := { run.metadata with
      data_processing_error := some e
      data_processing_failed_at := some now } })

/-- The catch-path metadata update of `handleInstagramPostsCompleted`
(controller 270-280). -/
def recordChainError (now : Nat) (run : ScraperRun) (e : String) (s : Store) :
    Store :=
  updateRun s run.id (fun r => { r with
    updated_at := some now
    metadata := { run.metadata with
      comments_scraper_error := some e
      comments_scraper_failed_at := some now } })

/-- The post-URL extraction of the chaining (controller 191-201): keep items
with a truthy `url`, `postUrl` or `shortCode`; map each to its URL (building
one from the short code when needed). The filter-map-filter pipeline of the
source is one `filterMap`. -/
def igPostUrl (item : ApifyItem) : Option String :=
  if !(falsyS item.url) then item.url
  else if !(falsyS item.postUrl) then item.postUrl
  else if !(falsyS item.shortCode) then
    some ("https://www.instagram.com/p/" ++ jsText item.shortCode ++ "/")
  else none

/-- `handleInstagramPostsCompleted(scraperRun)` (controller 178-282). All
errors are caught internally and recorded on the parent run's metadata; the
two zero-reference early returns perform no write at all. -/
def handleInstagramPostsCompleted (env : ApifyEnv) (now : Nat) (run : ScraperRun)
    (job : ScraperJob) (s : Store) : Store :=
  match run.apify_run_id with
  | none => recordChainError now run "No Apify run ID found in scraper run record" s
  | some aid =>
    match env.getRunData aid with
    | .error e => recordChainError now run e s
    | .ok postsData =>
      if postsData.isEmpty then s
      else
        let postUrls := (postsData.filterMap igPostUrl).take 10
        if postUrls.isEmpty then s
        else
          let maxComments := (jsOrN job.config_max_comments_per_post (some 20)).getD 20
          match env.startScraperRun "instagram_comments" postUrls maxComments
              run.metadata.webhook_url with
          | .error e => recordChainError now run e s
          | .ok info =>
            let newRun : ScraperRun := {
              id := s.nextRunId
              job_id := run.job_id
              tenant_id := job.tenant_id
              status := .running
              apify_run_id := some info.1
              started_at := some now
              metadata := {
                is_comments_scraper := true
                parent_posts_run_id := some run.id
                parent_apify_run_id := run.apify_run_id
                post_urls := postUrls
                triggered_automatically := true
                webhook_url := run.metadata.webhook_url } }
            let s1 := { s with runs := s.runs ++ [newRun],
                               nextRunId := s.nextRunId + 1 }
            updateRun s1 run.id (fun r => { r with
              updated_at := some now
              metadata := { run.metadata with
                comments_scraper_triggered := true
                comments_run_id := some newRun.id
                comments_apify_run_id := some info.1
                post_urls_found := some postUrls.length } })

/-- `processCompletedRun(scraperRun)` (controller 132-176). A `null` joined
job makes the `source_type` read throw, which the catch turns into a
processing-error annotation like any other ingestion failure. -/
def processCompletedRun (env : ApifyEnv) (now : Nat) (run : ScraperRun)
    (jobOpt : Option ScraperJob) (s : Store) : Store × List Event :=
  match jobOpt with
  | none =>
    (recordProcessingError now run "Cannot read properties of null" s, [])
  | some job =>
    if job.source_type == "instagram" && !run.metadata.is_comments_scraper then
      (handleInstagramPostsCompleted env now run job s, [])
    else
      match processApifyRunData env now run job s with
      | .ok res =>
        (updateRun res.1 run.id (fun r => { r with
          updated_at := some now
          metadata := { run.metadata with
            data_processed := true
            data_processed_at := some now } }), res.2)
      | .error e => (recordProcessingError now run e s, [])

/-- ASCII lower-casing (`String.prototype.toLowerCase()` on the uppercase
ASCII event names that occur here). -/
def toLowerAscii (cs : List Char) : List Char :=
  cs.map (fun c => if c.isUpper then Char.ofNat (c.toNat + 32) else c)

/-- JS `String.prototype.replace(marker, '')` with a string pattern: remove
the first occurrence of `marker`. -/
def removeFirst (marker : List Char) : List Char → List Char
  | [] => []
  | c :: cs =>
    if marker.isPrefixOf (c :: cs) then (c :: cs).drop marker.length
    else c :: removeFirst marker cs

/-- The suffix of the failure message:
`payload.eventType.toLowerCase().replace('actor.run.', '')`. -/
def eventSuffix (et : String) : String :=
  String.mk (removeFirst "actor.run.".data (toLowerAscii et.data))

/-- The webhook-receipt metadata annotation shared by both event branches
(spread over the fetched run's metadata). -/
def webhookReceiptMetadata (now : Nat) (run : ScraperRun) (et : String) :
    RunMetadata :=
  { run.metadata with
    apify_webhook_received := true
    webhook_event := some et
    webhook_received_at := some now }

/-- `handleWebhook(payload)` (controller 35-130). Returns the transport
outcome, the store after the call, and the trace of the synchronous
ingestion pass (empty on every other path). -/
def handleWebhook (env : ApifyEnv) (now : Nat) (payload : WebhookPayload)
    (s : Store) : HandlerOutcome × Store × List Event :=
  if !(structurallyValid payload) then
    (.badRequest "Invalid webhook payload", s, [])
  else
    match findRunByApifyId s (jsText payload.actorRunId) with
    | none => (.ok "ignored" "Scraper run not found", s, [])
    | some run =>
      if jsText payload.eventType == "ACTOR.RUN.SUCCEEDED" then
        (.ok "success" "Webhook processed successfully",
         processCompletedRun env now run (findJobById s run.job_id)
           (updateRun s run.id (fun r => { r with
             status := .completed
             finished_at := some now
             updated_at := some now
             metadata := webhookReceiptMetadata now run
               (jsText payload.eventType) })))
      else if jsText payload.eventType == "ACTOR.RUN.FAILED" ||
          jsText payload.eventType == "ACTOR.RUN.ABORTED" ||
          jsText payload.eventType == "ACTOR.RUN.TIMED_OUT" then
        (.ok "success" "Webhook processed successfully",
         updateRun s run.id (fun r => { r with
           status := .failed
           finished_at := some now
           updated_at := some now
           error_message := some ("Apify run " ++ eventSuffix (jsText payload.eventType))
           metadata := webhookReceiptMetadata now run (jsText payload.eventType) }),
         [])
      else
        (.ok "ignored" "Unhandled event type", s, [])

/-! ## Job trigger (`triggerJob`, scraper-jobs.service.ts) -/

/-- The caller-visible outcome of `triggerJob`. -/
inductive TriggerOutcome
  | ok (runId : Nat)
  | notFound
  | forbidden
  | failedStart (message : String)
  deriving Repr, DecidableEq

/-- `findOne(jobId, tenantId)`: the single job owned by the tenant. -/
def findOneJob (s : Store) (jid : Nat) (tenant : String) : Option ScraperJob :=
  match s.jobs.filter (fun j => j.id == jid && j.tenant_id == tenant) with
  | [j] => some j
  | _ => none

/-- `triggerJob(id, tenantId)`: validate the job, insert a `scheduled` run
carrying the webhook URL, start the external run (outcome `start`), then
either promote the run to `running` with the provider handle or mark it
`failed` and propagate the error. -/
def triggerJob (start : Except String (String × Option String))
    (webhookUrl : String) (now : Nat) (jid : Nat) (tenant : String) (s : Store) :
    TriggerOutcome × Store :=
  match findOneJob s jid tenant with
  | none => (.notFound, s)
  | some job =>
    if !job.is_active then (.forbidden, s)
    else
      let newRun : ScraperRun := {
        id := s.nextRunId
        job_id := jid
        tenant_id := tenant
        status := .scheduled
        metadata := { triggered_manually := true, webhook_url := some webhookUrl } }
      let s1 := { s with runs := s.runs ++ [newRun], nextRunId := s.nextRunId + 1 }
      match start with
      | .ok info =>
        let s2 := updateRun s1 newRun.id (fun r => { r with
          status := .running
          apify_run_id := some info.1
          started_at := some now
          updated_at := some now
          metadata := { newRun.metadata with
            apify_run_id := some info.1
            webhook_url := some webhookUrl
            apify_actor_id := info.2 } })
        let s3 := { s2 with jobs := s2.jobs.map (fun j =>
          if j.id == jid then { j with next_run_at := some now } else j) }
        (.ok newRun.id, s3)
      | .error e =>
        let s2 := updateRun s1 newRun.id (fun r => { r with
          status := .failed
          error_message := some ("Failed to start Apify run: " ++ e)
          finished_at := some now
          updated_at := some now })
        (.failedStart e, s2)

/-! ## Sentiment enrichment (`openai.service.ts`, `sentiment.service.ts`) -/

/-- The parsed judgement of the AI provider (`SentimentAnalysisResult`). -/
structure SentimentResult where
  sentiment : String
  confidence : Rat
  reasoning : Option String
  deriving Repr, DecidableEq

/-- The fallback pushed by `batchAnalyzeSentiment` when `analyzeSentiment`
throws for one item (openai.service.ts 725-735). -/
def fallbackSentiment (e : String) : SentimentResult :=
  { sentiment := "neutral", confidence := Rat.mk' 1 2,
    reasoning := some ("Analysis failed: " ++ e) }

/-- `batchAnalyzeSentiment(texts)` (openai.service.ts 713-739): the provider
is called per item with the item's text; a per-item failure is caught and
replaced by the neutral fallback, and the loop continues. Every item yields
a result entry. -/
def batchAnalyzeSentiment (provider : String → Except String SentimentResult)
    (texts : List (Nat × String)) : List (Nat × SentimentResult) :=
  texts.map (fun item =>
    match provider item.2 with
    | .ok r => (item.1, r)
    | .error e => (item.1, fallbackSentiment e))

/-- `findByMentionId` (sentiment.service.ts 197-214): `.single()`, so a row
only when exactly one matches. -/
def findSentimentByMentionId (s : Store) (mid : Nat) : Option SentimentRow :=
  match s.sentiments.filter (fun row => row.mention_id == mid) with
  | [row] => some row
  | _ => none

/-- The row built by `createSentimentAnalysis` (sentiment.service.ts
172-195). -/
def mkSentimentRow (m : MentionRow) (r : SentimentResult) : SentimentRow :=
  { mention_id := m.id
    tenant_id := m.tenant_id
    sentiment := r.sentiment
    confidence := r.confidence
    reasoning := r.reasoning
    ai_model := "gpt-4.1"
    ai_provider := "openai"
    analysis_version := "1.0" }

/-- `batchAnalyzeMentions(mentions, brandName)` (sentiment.service.ts
82-170): filter out mentions that already have an analysis, run the batch,
then store one row per batch result (matching it back to its mention by id).
Returns the new store and the stored rows. -/
def batchAnalyzeMentions (provider : String → Except String SentimentResult)
    (mentions : List MentionRow) (s : Store) : Store × List SentimentRow :=
  let toAnalyze := mentions.filter (fun m => (findSentimentByMentionId s m.id).isNone)
  let batchResults := batchAnalyzeSentiment provider
    (toAnalyze.map (fun m => (m.id, m.content)))
  batchResults.foldl (fun acc br =>
    match toAnalyze.find? (fun m => m.id == br.1) with
    | some m =>
      let row := mkSentimentRow m br.2
      ({ acc.1 with sentiments := acc.1.sentiments ++ [row] }, acc.2 ++ [row])
    | none => acc) (s, [])

/-! ## Tagging enrichment (`ai-tagging.service.ts`) -/

/-- The parsed judgement of the tagging provider (`AITaggingResult`, minus
the mention id it is keyed by). -/
structure TagResult where
  category : String
  intent : String
  priority : String
  urgency_score : Rat
  confidence : Rat
  deriving Repr, DecidableEq

/-- `getMentionTag(mentionId, tenantId)` (ai-tagging.service.ts 440-449):
`.single()` row lookup. -/
def getMentionTag (s : Store) (mid : Nat) (tenant : String) : Option TagRow :=
  match s.tags.filter (fun t => t.mention_id == mid && t.tenant_id == tenant) with
  | [t] => some t
  | _ => none

/-- `storeMentionTag` (ai-tagging.service.ts 118-186): upsert one row on the
key `(mention_id, category_id, intent_id)`. -/
def storeMentionTag (tenant : String) (mid : Nat) (r : TagResult) (s : Store) :
    Store :=
  let row : TagRow := {
    mention_id := mid
    tenant_id := tenant
    category_id := r.category
    intent_id := r.intent
    priority := r.priority
    urgency_score := r.urgency_score
    confidence := r.confidence }
  if s.tags.any (fun t => t.mention_id == mid && t.category_id == r.category &&
      t.intent_id == r.intent) then
    { s with tags := s.tags.map (fun t =>
      if t.mention_id == mid && t.category_id == r.category &&
          t.intent_id == r.intent then row else t) }
  else
    { s with tags := s.tags ++ [row] }

/-- The loop of `bulkTagMentions` (ai-tagging.service.ts 205-228). `tagger`
stands for `tagMention` — the mention fetch plus the AI call — whose failure
is caught per item; a successful result is stored and counted, a failure
only counted. Already-tagged mentions are skipped (no `forceRetag` in the
ingestion path). -/
def bulkTagLoop (tagger : Nat → Except String TagResult) (tenant : String)
    (forceRetag : Bool) : List Nat → Store → Nat → Nat → Nat × Nat × Store
  | [], s, succ, fail => (succ, fail, s)
  | mid :: rest, s, succ, fail =>
    if !forceRetag && (getMentionTag s mid tenant).isSome then
      bulkTagLoop tagger tenant forceRetag rest s succ fail
    else
      match tagger mid with
      | .ok r =>
        bulkTagLoop tagger tenant forceRetag rest (storeMentionTag tenant mid r s)
          (succ + 1) fail
      | .error _ => bulkTagLoop tagger tenant forceRetag rest s succ (fail + 1)

/-- `bulkTagMentions(mentionIds, tenantId, industryId, forceRetag)`:
returns `(success, failed, store)`. -/
def bulkTagMentions (tagger : Nat → Except String TagResult) (mids : List Nat)
    (tenant : String) (forceRetag : Bool) (s : Store) : Nat × Nat × Store :=
  bulkTagLoop tagger tenant forceRetag mids s 0 0

/-! ## The run state machine as a transition system

The core operations that can touch `scraper_runs` rows: the manual trigger
and the webhook callback (which internally performs chaining and the
ingestion pass). -/

/-- Is a run status terminal? -/
def isTerminal (st : RunStatus) : Bool := st == .completed || st == .failed

/-- One core operation, with its external-world parameters. -/
inductive Op
  | trigger (start : Except String (String × Option String)) (webhookUrl : String)
      (now jid : Nat) (tenant : String)
  | webhook (env : ApifyEnv) (now : Nat) (payload : WebhookPayload)

/-- The store after one operation. -/
def applyOp (s : Store) : Op → Store
  | .trigger start w n j t => (triggerJob start w n j t s).2
  | .webhook env n p => (handleWebhook env n p s).2.1

/-- The store after a sequence of operations. -/
def applyOps (s : Store) (ops : List Op) : Store := ops.foldl applyOp s

/-- Store well-formedness: run ids are below the id counter and distinct
(inserted rows get fresh primary keys). -/
def WFStore (s : Store) : Prop :=
  (∀ r ∈ s.runs, r.id < s.nextRunId) ∧ (s.runs.map (fun r => r.id)).Nodup

/-- How a step may change the run table: the id counter grows, and every row
afterwards is either a freshly inserted one (id at or above the old counter)
or matches an old row whose status it either keeps or has moved to a
terminal status. -/
def Evolves (s s2 : Store) : Prop :=
  s.nextRunId ≤ s2.nextRunId ∧
  ∀ r2 ∈ s2.runs, s.nextRunId ≤ r2.id ∨
    ∃ r ∈ s.runs, r2.id = r.id ∧ (r2.status = r.status ∨ isTerminal r2.status = true)

/-- A well-formedness-conditioned evolution step. -/
def StepOk (s s2 : Store) : Prop := WFStore s → Evolves s s2 ∧ WFStore s2

/-! ## Trace-ordering predicates (ingestion-pass ordering) -/

/-- Is an event the run-counter update? -/
def isStatsEvent : Event → Bool
  | .statsUpdated _ _ _ _ => true
  | _ => false

/-- Is an event the scheduling of an enrichment task? -/
def isSchedEvent : Event → Bool
  | .sentimentScheduled _ => true
  | .taggingScheduled _ => true
  | _ => false

/-- Is an event the mention upsert? -/
def isUpsertEvent : Event → Bool
  | .mentionsUpserted _ => true
  | _ => false

/-- The ordering asserted by the spec: every counter update happens before
every enrichment scheduling within the pass. -/
def countersBeforeFanout (tr : List Event) : Prop :=
  ∀ (i j : Nat) (hi : i < tr.length) (hj : j < tr.length),
    isStatsEvent (tr.get ⟨i, hi⟩) = true → isSchedEvent (tr.get ⟨j, hj⟩) = true →
      i < j

/-! ## Enrichment characterization helpers -/

/-- The effective per-item sentiment of the batch: the provider's judgement,
or the caught-and-replaced neutral fallback. -/
def resolveSentiment (provider : String → Except String SentimentResult)
    (text : String) : SentimentResult :=
  match provider text with
  | .ok r => r
  | .error e => fallbackSentiment e

/-- The rows `batchAnalyzeMentions` stores for a list of batch results,
matching each back to its mention inside `toA`. -/
def expectedRows (toA : List MentionRow) : List (Nat × SentimentResult) →
    List SentimentRow
  | [] => []
  | br :: rest =>
    (match toA.find? (fun m => m.id == br.1) with
     | some m => [mkSentimentRow m br.2]
     | none => []) ++ expectedRows toA rest

/-- The sentiment rows the batch stores for a list of mentions: one per
mention, holding the provider's judgement or the neutral fallback. -/
def sentimentRowsFor (provider : String → Except String SentimentResult)
    (mentions : List MentionRow) : List SentimentRow :=
  mentions.map (fun m => mkSentimentRow m (resolveSentiment provider m.content))

/-- Does the store hold some tag row for a mention? -/
def HasTag (s : Store) (mid : Nat) : Prop := ∃ t ∈ s.tags, t.mention_id = mid

/-- Did a call return without throwing? -/
def isOkE (r : Except String (Store × List Event)) : Bool :=
  match r with
  | .ok _ => true
  | .error _ => false

/-! ## Concrete fixtures for the claim instances -/

/-- A trivial platform date parser (never called on the fixture items). -/
def exParse : String → Option String := fun _ => none

/-- A review item carrying a native id. -/
def exItemReview : ApifyItem := { id := some "rev1", text := some "Great product" }

/-- An item with no native id whose URL matches the `/reviews/{id}` pattern. -/
def exItemUrl : ApifyItem :=
  { url := some "https://shop.example.com/reviews/abc123", text := some "y" }

/-- An item with content but no native id, URL or title. -/
def exItemBare : ApifyItem := { text := some "hi" }

/-- An item whose native id duplicates an already-ingested mention. -/
def exItemDup : ApifyItem := { id := some "dup1", text := some "z" }

/-- A plain item with a native id. -/
def exItemA : ApifyItem := { id := some "a1", text := some "x" }

def exJobReviews : ScraperJob :=
  { id := 7, tenant_id := "t1", name := "reviews", brand_id := "b1",
    source_type := "google_reviews" }

def exRunReviews : ScraperRun :=
  { id := 1, job_id := 7, tenant_id := "t1", status := .running,
    apify_run_id := some "A1" }

def exStoreReviews : Store :=
  { jobs := [exJobReviews], runs := [exRunReviews], nextRunId := 2 }

def exEnvReviews : ApifyEnv :=
  { getRunData := fun aid => if aid == "A1" then .ok [exItemReview]
      else .error "run not found"
    startScraperRun := fun _ _ _ _ => .error "no start"
    dateParse := exParse }

/-- First ingestion pass over the single review item. -/
def exPass1 : Except String (Store × List Event) :=
  processApifyRunData exEnvReviews 5 exRunReviews exJobReviews exStoreReviews

/-- The pass outcome, defaulting to the untouched store on error. -/
def ingestOutcome (base : Store) (r : Except String (Store × List Event)) :
    Store × List Event :=
  match r with
  | .ok res => res
  | .error _ => (base, [])

def exIngest1 : Store × List Event := ingestOutcome exStoreReviews exPass1

/-- Second ingestion pass: the same candidate set again. -/
def exPass2 : Except String (Store × List Event) :=
  processApifyRunData exEnvReviews 6 exRunReviews exJobReviews exIngest1.1

def exIngest2 : Store × List Event := ingestOutcome exIngest1.1 exPass2

/-- The already-ingested mention underlying the C2 scenario. -/
def exPreCand : MentionCandidate :=
  { tenant_id := "t1"
    brand_id := "b1"
    job_run_id := 0
    source_type := "google_reviews"
    source_url := none
    source_id := "dup1"
    title := none
    content := "old"
    author := none
    author_url := none
    author_followers := none
    published_at := none
    language := "en"
    platform_data := {} }

def exPreRow : MentionRow := { exPreCand with id := 0 }

def exRunCounters : ScraperRun :=
  { id := 3, job_id := 7, tenant_id := "t1", status := .running,
    apify_run_id := some "A2" }

def exStoreCounters : Store :=
  { jobs := [exJobReviews], runs := [exRunCounters], mentions := [exPreRow],
    nextRunId := 4, nextMentionId := 1 }

/-- Three raw items: one with a native id, one with no native id but a
pattern-bearing URL, one whose derived id duplicates the stored mention. -/
def exEnvCounters : ApifyEnv :=
  { getRunData := fun aid => if aid == "A2" then .ok [exItemA, exItemUrl, exItemDup]
      else .error "run not found"
    startScraperRun := fun _ _ _ _ => .error "no start"
    dateParse := exParse }

def exPassCounters : Except String (Store × List Event) :=
  processApifyRunData exEnvCounters 5 exRunCounters exJobReviews exStoreCounters

def exIngestCounters : Store × List Event :=
  ingestOutcome exStoreCounters exPassCounters

/-- Instagram chaining fixtures: a first-phase posts run whose dataset has
one item with content but no post URL (zero usable references). -/
def exJobIg : ScraperJob :=
  { id := 9, tenant_id := "t2", name := "ig", brand_id := "b2",
    source_type := "instagram" }

def exRunIg : ScraperRun :=
  { id := 11, job_id := 9, tenant_id := "t2", status := .running,
    apify_run_id := some "R1" }

def exStoreIg : Store := { jobs := [exJobIg], runs := [exRunIg], nextRunId := 12 }

def exEnvIg : ApifyEnv :=
  { getRunData := fun aid => if aid == "R1" then .ok [{ text := some "hello" }]
      else .error "run not found"
    startScraperRun := fun _ _ _ _ => .error "should not start"
    dateParse := exParse }

def exPayloadIg : WebhookPayload :=
  { eventType := some "ACTOR.RUN.SUCCEEDED", actorRunId := some "R1" }

def exWebhookIg : HandlerOutcome × Store × List Event :=
  handleWebhook exEnvIg 9 exPayloadIg exStoreIg

/-- Sentiment-batch fixtures: five stored mentions, the provider fails on
the third one's text. -/
def exMentionRowAt (i : Nat) : MentionRow :=
  { exPreCand with id := i, source_id := "m" ++ toString i,
                   content := "text" ++ toString i }

def exFiveMentions : List MentionRow :=
  [exMentionRowAt 0, exMentionRowAt 1, exMentionRowAt 2, exMentionRowAt 3,
   exMentionRowAt 4]

def exStoreFive : Store := { mentions := exFiveMentions, nextMentionId := 5 }

def exGoodResult : SentimentResult :=
  { sentiment := "positive", confidence := Rat.mk' 9 10, reasoning := some "ok" }

/-- The provider: fails exactly on the third mention's text. -/
def exProviderFail3 : String → Except String SentimentResult := fun text =>
  if text == "text2" then .error "provider down" else .ok exGoodResult

def exBatchOut : Store × List SentimentRow :=
  batchAnalyzeMentions exProviderFail3 exFiveMentions exStoreFive

/-- A tagger failing exactly on mention 2. -/
def exTaggerFail3 : Nat → Except String TagResult := fun mid =>
  if mid == 2 then .error "provider down"
  else .ok { category := "praise", intent := "compliment", priority := "low",
             urgency_score := Rat.mk' 1 10, confidence := Rat.mk' 4 5 }

def exBulkTagOut : Nat × Nat × Store :=
  bulkTagMentions exTaggerFail3 [0, 1, 2, 3, 4] "t1" false exStoreFive

/-- A callback for the review run's handle. -/
def exPayloadA1 : WebhookPayload :=
  { eventType := some "ACTOR.RUN.SUCCEEDED", actorRunId := some "A1" }

/-- An environment whose dataset fetch always throws (ingestion failure). -/
def exEnvFetchFail : ApifyEnv :=
  { getRunData := fun _ => .error "network down"
    startScraperRun := fun _ _ _ _ => .error "no start"
    dateParse := exParse }

/-- An Instagram post item carrying a usable post URL. -/
def exItemIgPost : ApifyItem :=
  { url := some "https://www.instagram.com/p/xyz/", text := some "post" }

/-- An environment where the first-phase dataset has one usable reference
but starting the dependent comments run fails. -/
def exEnvIgStartFail : ApifyEnv :=
  { getRunData := fun aid => if aid == "R1" then .ok [exItemIgPost]
      else .error "run not found"
    startScraperRun := fun _ _ _ _ => .error "apify 500"
    dateParse := exParse }

/-- A store whose single run is already `completed`. -/
def exRunDone : ScraperRun :=
  { id := 1, job_id := 7, tenant_id := "t1", status := .completed,
    apify_run_id := some "A1" }

def exStoreDone : Store :=
  { jobs := [exJobReviews], runs := [exRunDone], nextRunId := 2 }

/-- A trigger for job 7 followed by a duplicate failure callback for the
completed run. -/
def exOpsC5 : List Op :=
  [Op.trigger (.ok ("N1", none)) "http://cb.example/apify" 7 7 "t1",
   Op.webhook exEnvReviews 8 { eventType := some "ACTOR.RUN.FAILED",
                               actorRunId := some "A1" }]

/-- The row of run 1 after the operation sequence. -/
def exRunAfterC5 : ScraperRun :=
  match (applyOps exStoreDone exOpsC5).runs with
  | r :: _ => r
  | [] => exRunDone

/-- The candidate normalized from the single review item. -/
def exCandReview : MentionCandidate :=
  mkMentionCandidate exParse 5 exRunReviews exJobReviews 0 exItemReview

/-- A structurally valid callback whose run handle matches no stored run. -/
def exPayloadUnknown : WebhookPayload :=
  { eventType := some "ACTOR.RUN.SUCCEEDED", actorRunId := some "ZZZ" }

end BrandPulse

deriving instance DecidableEq for Except

namespace BrandPulse

/-! ## Gateway lemmas -/

/-- A successful `.single()` lookup yields a stored run carrying the looked
up handle. -/
theorem findRunByApifyId_spec {s : Store} {h : String} {run : ScraperRun}
    (hf : findRunByApifyId s h = some run) :
    run ∈ s.runs ∧ run.apify_run_id = some h := by
  unfold findRunByApifyId at hf
  cases hfil : s.runs.filter (fun r => r.apify_run_id == some h) with
  | nil => rw [hfil] at hf; simp at hf
  | cons r rest =>
    cases rest with
    | nil =>
      rw [hfil] at hf
      simp at hf
      subst hf
      have hmem : r ∈ s.runs.filter (fun r => r.apify_run_id == some h) := by
        rw [hfil]; exact List.mem_singleton_self r
      rw [List.mem_filter] at hmem
      exact ⟨hmem.1, by have := hmem.2; simpa using this⟩
    | cons r2 rest2 => rw [hfil] at hf; simp at hf

/-- Membership in the run table after a keyed update. -/
theorem mem_updateRun {s : Store} {rid : Nat} {f : ScraperRun → ScraperRun}
    {r2 : ScraperRun} :
    r2 ∈ (updateRun s rid f).runs ↔
      ∃ r ∈ s.runs, r2 = if r.id == rid then f r else r := by
  unfold updateRun
  rw [List.mem_map]
  constructor
  · rintro ⟨a, ha, he⟩; exact ⟨a, ha, he.symm⟩
  · rintro ⟨a, ha, he⟩; exact ⟨a, ha, he.symm⟩

/-- The callback on a known run with a succeeded event whose ingestion throws
(the dataset fetch fails) reduces to the processing-error annotation. -/
theorem handleWebhook_ingestion_error_eq (env : ApifyEnv) (now : Nat)
    (p : WebhookPayload) (s : Store) (run : ScraperRun) (job : ScraperJob)
    (e : String)
    (hval : structurallyValid p = true)
    (hlookup : findRunByApifyId s (jsText p.actorRunId) = some run)
    (hevent : p.eventType = some "ACTOR.RUN.SUCCEEDED")
    (hjob : findJobById s run.job_id = some job)
    (hchain : (job.source_type == "instagram" &&
      !run.metadata.is_comments_scraper) = false)
    (hgrd : env.getRunData (jsText p.actorRunId) = .error e) :
    handleWebhook env now p s =
      (.ok "success" "Webhook processed successfully",
       recordProcessingError now run e (updateRun s run.id (fun r =>
         { r with status := .completed, finished_at := some now,
                  updated_at := some now,
                  metadata := webhookReceiptMetadata now run "ACTOR.RUN.SUCCEEDED" })),
       []) := by
  have haid := (findRunByApifyId_spec hlookup).2
  simp only [jsText] at hlookup hgrd haid
  unfold handleWebhook processCompletedRun processApifyRunData
  simp only [jsText, hval, hlookup, hevent, hjob, haid, hgrd, hchain,
    Option.getD_some, Bool.not_true, Bool.false_eq_true, if_false, if_true,
    beq_self_eq_true, reduceIte]

/-- The callback on a known run with a succeeded event for a first-phase
Instagram posts run reduces to the chaining handler. -/
theorem handleWebhook_chaining_eq (env : ApifyEnv) (now : Nat)
    (p : WebhookPayload) (s : Store) (run : ScraperRun) (job : ScraperJob)
    (hval : structurallyValid p = true)
    (hlookup : findRunByApifyId s (jsText p.actorRunId) = some run)
    (hevent : p.eventType = some "ACTOR.RUN.SUCCEEDED")
    (hjob : findJobById s run.job_id = some job)
    (hchain : (job.source_type == "instagram" &&
      !run.metadata.is_comments_scraper) = true) :
    handleWebhook env now p s =
      (.ok "success" "Webhook processed successfully",
       handleInstagramPostsCompleted env now run job (updateRun s run.id (fun r =>
         { r with status := .completed, finished_at := some now,
                  updated_at := some now,
                  metadata := webhookReceiptMetadata now run "ACTOR.RUN.SUCCEEDED" })),
       []) := by
  simp only [jsText] at hlookup
  unfold handleWebhook processCompletedRun
  simp only [jsText, hval, hlookup, hevent, hjob, hchain,
    Option.getD_some, Bool.not_true, Bool.false_eq_true, if_false, if_true,
    beq_self_eq_true, reduceIte]

/-- Zero usable references: the chaining handler writes nothing at all. -/
theorem handleInstagramPostsCompleted_zero_refs (env : ApifyEnv) (now : Nat)
    (run : ScraperRun) (job : ScraperJob) (x : Store) (aid : String)
    (postsData : List ApifyItem)
    (haid : run.apify_run_id = some aid)
    (hdata : env.getRunData aid = .ok postsData)
    (hurls : (postsData.filterMap igPostUrl).take 10 = []) :
    handleInstagramPostsCompleted env now run job x = x := by
  unfold handleInstagramPostsCompleted
  simp only [haid, hdata, hurls]
  by_cases hemp : postsData.isEmpty = true
  · simp [hemp]
  · simp [hemp]

/-- Dependent-start failure: the chaining handler records the error on the
parent run. -/
theorem handleInstagramPostsCompleted_start_fails (env : ApifyEnv) (now : Nat)
    (run : ScraperRun) (job : ScraperJob) (x : Store) (aid : String)
    (postsData : List ApifyItem) (e : String)
    (haid : run.apify_run_id = some aid)
    (hdata : env.getRunData aid = .ok postsData)
    (hne : (postsData.filterMap igPostUrl).take 10 ≠ [])
    (hstart : env.startScraperRun "instagram_comments"
      ((postsData.filterMap igPostUrl).take 10)
      ((jsOrN job.config_max_comments_per_post (some 20)).getD 20)
      run.metadata.webhook_url = .error e) :
    handleInstagramPostsCompleted env now run job x = recordChainError now run e x := by
  have hemp : postsData.isEmpty = false := by
    cases postsData with
    | nil => simp at hne
    | cons a l => rfl
  unfold handleInstagramPostsCompleted
  simp only [haid, hdata, hemp, hstart, Bool.false_eq_true, if_false,
    reduceIte, List.isEmpty_eq_true, hne]

/-! ## Claim C3: ingestion errors are absorbed by the callback -/

/-- C3: for a structurally valid callback identifying a known run, the
handler returns success even when ingestion throws — the error is recorded
on the Run as a processing-error flag with a timestamp, the run stays
`completed` — and the endpoint throws a 4xx (`BadRequest`) exactly for
structurally invalid payloads. -/
theorem C3_ingestion_error_absorbed :
    (∀ (env : ApifyEnv) (now : Nat) (p : WebhookPayload) (s : Store)
        (run : ScraperRun) (job : ScraperJob) (e : String),
      structurallyValid p = true →
      findRunByApifyId s (jsText p.actorRunId) = some run →
      p.eventType = some "ACTOR.RUN.SUCCEEDED" →
      findJobById s run.job_id = some job →
      (job.source_type == "instagram" && !run.metadata.is_comments_scraper) = false →
      env.getRunData (jsText p.actorRunId) = .error e →
      (handleWebhook env now p s).1 = .ok "success" "Webhook processed successfully" ∧
      (∃ r2 ∈ (handleWebhook env now p s).2.1.runs, r2.id = run.id) ∧
      (∀ r2 ∈ (handleWebhook env now p s).2.1.runs, r2.id = run.id →
        r2.status = .completed ∧
        r2.metadata.data_processing_error = some e ∧
        r2.metadata.data_processing_failed_at = some now)) ∧
    (∀ (env : ApifyEnv) (now : Nat) (p : WebhookPayload) (s : Store),
      (∃ msg, (handleWebhook env now p s).1 = .badRequest msg) ↔
        structurallyValid p = false) := by
  constructor
  · intro env now p s run job e hval hlookup hevent hjob hchain hgrd
    have hmem0 := (findRunByApifyId_spec hlookup).1
    have hres := handleWebhook_ingestion_error_eq env now p s run job e hval
      hlookup hevent hjob hchain hgrd
    rw [hres]
    unfold recordProcessingError
    refine ⟨rfl, ?_, ?_⟩
    · refine ⟨_, mem_updateRun.mpr ⟨_, mem_updateRun.mpr ⟨run, hmem0, rfl⟩, rfl⟩, ?_⟩
      simp
    · intro r2 hr2 hid
      rw [mem_updateRun] at hr2
      obtain ⟨r1, hr1, he2⟩ := hr2
      rw [mem_updateRun] at hr1
      obtain ⟨r0, hr0, he1⟩ := hr1
      by_cases h0 : (r0.id == run.id) = true
      · rw [if_pos h0] at he1
        subst he1
        rw [if_pos h0] at he2
        subst he2
        exact ⟨rfl, rfl, rfl⟩
      · rw [if_neg h0] at he1
        subst he1
        rw [if_neg h0] at he2
        subst he2
        rw [hid] at h0
        simp at h0
  · intro env now p s
    constructor
    · rintro ⟨msg, hmsg⟩
      by_cases hv : structurallyValid p = true
      · exfalso
        unfold handleWebhook at hmsg
        rw [if_neg (by simp [hv])] at hmsg
        split at hmsg
        · simp at hmsg
        · split at hmsg
          · simp at hmsg
          · split at hmsg
            · simp at hmsg
            · simp at hmsg
      · simpa using hv
    · intro hv
      refine ⟨"Invalid webhook payload", ?_⟩
      unfold handleWebhook
      rw [if_pos (by simp [hv])]

/-- C3 witness: the review run whose dataset fetch throws still yields a
success response with the error flagged on the run; the empty payload gets a
4xx. -/
theorem C3_ingestion_error_absorbed_witness :
    ((handleWebhook exEnvFetchFail 4 exPayloadA1 exStoreReviews).1 =
        .ok "success" "Webhook processed successfully" ∧
      (∃ r2 ∈ (handleWebhook exEnvFetchFail 4 exPayloadA1 exStoreReviews).2.1.runs,
        r2.id = exRunReviews.id) ∧
      (∀ r2 ∈ (handleWebhook exEnvFetchFail 4 exPayloadA1 exStoreReviews).2.1.runs,
        r2.id = exRunReviews.id →
        r2.status = .completed ∧
        r2.metadata.data_processing_error = some "network down" ∧
        r2.metadata.data_processing_failed_at = some 4)) ∧
    (∃ msg, (handleWebhook exEnvReviews 4 {} exStoreReviews).1 = .badRequest msg) :=
  ⟨C3_ingestion_error_absorbed.1 exEnvFetchFail 4 exPayloadA1 exStoreReviews
      exRunReviews exJobReviews "network down" (by decide) (by decide) (by decide)
      (by decide) (by decide) (by decide),
   (C3_ingestion_error_absorbed.2 exEnvReviews 4 {} exStoreReviews).mpr (by decide)⟩

/-! ## Claim C7: two-phase chaining failure handling -/

/-- C7 counterexample: a completed first-phase Instagram run whose dataset
has one item with no usable post URL (zero usable references). The handler
returns success and the parent run is left `completed`, but no error is
recorded anywhere in its metadata — contradicting "the chaining attempt
records an error in the parent Run's metadata". -/
theorem C7_zero_refs_counterexample :
    exWebhookIg.1 = .ok "success" "Webhook processed successfully" ∧
    exWebhookIg.2.1.runs.map (fun r => (r.status, r.metadata.comments_scraper_error,
      r.metadata.data_processing_error, r.metadata.comments_scraper_failed_at)) =
      [(.completed, none, none, none)] ∧
    exWebhookIg.2.1.mentions = [] := by decide

/-- C7 (amended): when the first-phase dataset yields zero usable entity
references the chaining attempt records nothing — the parent run keeps
exactly the webhook-receipt metadata, stays `completed`, and no mentions are
ingested; when starting the dependent run fails, the error is recorded in
the parent run's metadata, the parent stays `completed`, and no mentions are
ingested. -/
theorem C7_chaining_failures (env : ApifyEnv) (now : Nat) (p : WebhookPayload)
    (s : Store) (run : ScraperRun) (job : ScraperJob)
    (postsData : List ApifyItem)
    (hval : structurallyValid p = true)
    (hlookup : findRunByApifyId s (jsText p.actorRunId) = some run)
    (hevent : p.eventType = some "ACTOR.RUN.SUCCEEDED")
    (hjob : findJobById s run.job_id = some job)
    (hchain : (job.source_type == "instagram" &&
      !run.metadata.is_comments_scraper) = true)
    (hdata : env.getRunData (jsText p.actorRunId) = .ok postsData) :
    ((postsData.filterMap igPostUrl).take 10 = [] →
      (handleWebhook env now p s).1 = .ok "success" "Webhook processed successfully" ∧
      (handleWebhook env now p s).2.1.mentions = s.mentions ∧
      (∃ r2 ∈ (handleWebhook env now p s).2.1.runs, r2.id = run.id) ∧
      (∀ r2 ∈ (handleWebhook env now p s).2.1.runs, r2.id = run.id →
        r2.status = .completed ∧
        r2.metadata = webhookReceiptMetadata now run "ACTOR.RUN.SUCCEEDED" ∧
        r2.metadata.comments_scraper_error = run.metadata.comments_scraper_error ∧
        r2.metadata.data_processing_error = run.metadata.data_processing_error)) ∧
    (∀ e, (postsData.filterMap igPostUrl).take 10 ≠ [] →
      env.startScraperRun "instagram_comments"
        ((postsData.filterMap igPostUrl).take 10)
        ((jsOrN job.config_max_comments_per_post (some 20)).getD 20)
        run.metadata.webhook_url = .error e →
      (handleWebhook env now p s).1 = .ok "success" "Webhook processed successfully" ∧
      (handleWebhook env now p s).2.1.mentions = s.mentions ∧
      (∃ r2 ∈ (handleWebhook env now p s).2.1.runs, r2.id = run.id) ∧
      (∀ r2 ∈ (handleWebhook env now p s).2.1.runs, r2.id = run.id →
        r2.status = .completed ∧
        r2.metadata.comments_scraper_error = some e ∧
        r2.metadata.comments_scraper_failed_at = some now)) := by
  have hmem0 := (findRunByApifyId_spec hlookup).1
  have haid := (findRunByApifyId_spec hlookup).2
  have hres := handleWebhook_chaining_eq env now p s run job hval hlookup hevent
    hjob hchain
  constructor
  · intro hurls
    rw [hres, handleInstagramPostsCompleted_zero_refs env now run job _
      (jsText p.actorRunId) postsData haid hdata hurls]
    refine ⟨rfl, rfl, ?_, ?_⟩
    · exact ⟨_, mem_updateRun.mpr ⟨run, hmem0, rfl⟩, by simp⟩
    · intro r2 hr2 hid
      rw [mem_updateRun] at hr2
      obtain ⟨r0, hr0, he1⟩ := hr2
      by_cases h0 : (r0.id == run.id) = true
      · rw [if_pos h0] at he1
        subst he1
        exact ⟨rfl, rfl, rfl, rfl⟩
      · rw [if_neg h0] at he1
        subst he1
        rw [hid] at h0
        simp at h0
  · intro e hne hstart
    rw [hres, handleInstagramPostsCompleted_start_fails env now run job _
      (jsText p.actorRunId) postsData e haid hdata hne hstart]
    unfold recordChainError
    refine ⟨rfl, rfl, ?_, ?_⟩
    · exact ⟨_, mem_updateRun.mpr ⟨_, mem_updateRun.mpr ⟨run, hmem0, rfl⟩, rfl⟩, by simp⟩
    · intro r2 hr2 hid
      rw [mem_updateRun] at hr2
      obtain ⟨r1, hr1, he2⟩ := hr2
      rw [mem_updateRun] at hr1
      obtain ⟨r0, hr0, he1⟩ := hr1
      by_cases h0 : (r0.id == run.id) = true
      · rw [if_pos h0] at he1
        subst he1
        rw [if_pos h0] at he2
        subst he2
        exact ⟨rfl, rfl, rfl⟩
      · rw [if_neg h0] at he1
        subst he1
        rw [if_neg h0] at he2
        subst he2
        rw [hid] at h0
        simp at h0

/-- C7 witness: both failure shapes at concrete Instagram fixtures. -/
theorem C7_chaining_failures_witness :
    ((handleWebhook exEnvIg 9 exPayloadIg exStoreIg).1 =
        .ok "success" "Webhook processed successfully" ∧
      (handleWebhook exEnvIg 9 exPayloadIg exStoreIg).2.1.mentions =
        exStoreIg.mentions ∧
      (∃ r2 ∈ (handleWebhook exEnvIg 9 exPayloadIg exStoreIg).2.1.runs,
        r2.id = exRunIg.id) ∧
      (∀ r2 ∈ (handleWebhook exEnvIg 9 exPayloadIg exStoreIg).2.1.runs,
        r2.id = exRunIg.id →
        r2.status = .completed ∧
        r2.metadata = webhookReceiptMetadata 9 exRunIg "ACTOR.RUN.SUCCEEDED" ∧
        r2.metadata.comments_scraper_error =
          exRunIg.metadata.comments_scraper_error ∧
        r2.metadata.data_processing_error =
          exRunIg.metadata.data_processing_error)) ∧
    ((handleWebhook exEnvIgStartFail 9 exPayloadIg exStoreIg).1 =
        .ok "success" "Webhook processed successfully" ∧
      (handleWebhook exEnvIgStartFail 9 exPayloadIg exStoreIg).2.1.mentions =
        exStoreIg.mentions ∧
      (∃ r2 ∈ (handleWebhook exEnvIgStartFail 9 exPayloadIg exStoreIg).2.1.runs,
        r2.id = exRunIg.id) ∧
      (∀ r2 ∈ (handleWebhook exEnvIgStartFail 9 exPayloadIg exStoreIg).2.1.runs,
        r2.id = exRunIg.id →
        r2.status = .completed ∧
        r2.metadata.comments_scraper_error = some "apify 500" ∧
        r2.metadata.comments_scraper_failed_at = some 9)) :=
  ⟨(C7_chaining_failures exEnvIg 9 exPayloadIg exStoreIg exRunIg exJobIg
      [{ text := some "hello" }] (by decide) (by decide) (by decide) (by decide)
      (by decide) (by decide)).1 (by decide),
   (C7_chaining_failures exEnvIgStartFail 9 exPayloadIg exStoreIg exRunIg exJobIg
      [exItemIgPost] (by decide) (by decide) (by decide) (by decide)
      (by decide) (by decide)).2 "apify 500" (by decide) (by decide)⟩

/-! ## Claim C8: source-id derivation -/

/-- C8 (amended): source-id derivation follows the priority chain. A
non-empty native id field is used when present; otherwise an id extracted
from the URL via the known path patterns (an item with url
`https://shop.example.com/reviews/abc123` and no native id derives
`abc123`); otherwise, for non-empty URL/title text, a deterministic hash of
that text combined with the item's position, independent of the invocation
time. (Only an item with no native id, no URL and no title at all falls
back to a timestamp-based, non-stable id — see the counterexample.) -/
theorem C8_sourceId_priority_chain :
    (∀ (item : ApifyItem) (idx now : Nat) (s : String),
      item.id = some s → s ≠ "" → sourceIdGeneric item idx now = s) ∧
    (∀ idx now : Nat, sourceIdGeneric exItemUrl idx now = "abc123") ∧
    (∀ (src : String) (idx t1 t2 : Nat), src ≠ "" →
      generateSourceId src idx t1 = generateSourceId src idx t2) ∧
    (∀ (src : String) (idx now : Nat), src ≠ "" →
      captureAfter "/reviews/".data stopSlashQuestion src.data = none →
      captureAfter "/posts/".data stopSlashQuestion src.data = none →
      trailingSegment src.data = none →
      captureAfter "id=".data (fun c => c == '&') src.data = none →
      generateSourceId src idx now =
        "hash_" ++ simpleHash src ++ "_" ++ toString idx) := by
  refine ⟨?_, ?_, ?_, ?_⟩
  · intro item idx now s hid hne
    unfold sourceIdGeneric jsOrS jsOrDefault
    rw [hid]
    simp [hne]
  · intro idx now
    show generateSourceId "https://shop.example.com/reviews/abc123" idx now = "abc123"
    unfold generateSourceId
    rw [if_neg (by decide), show captureAfter "/reviews/".data stopSlashQuestion
      "https://shop.example.com/reviews/abc123".data = some "abc123" from by decide]
  · intro src idx t1 t2 h
    unfold generateSourceId
    rw [if_neg h, if_neg h]
  · intro src idx now h h1 h2 h3 h4
    unfold generateSourceId
    rw [if_neg h, h1, h2, h3, h4]

/-- C8 counterexample: an item with content but no native id, URL or title
receives a `generated_{Date.now()}_{index}` id, so two invocations on the
same input at different times disagree — contradicting "a deterministic
hash of the URL/title text ... stable across repeated invocations". -/
theorem C8_sourceId_counterexample :
    sourceIdGeneric exItemBare 0 10 ≠ sourceIdGeneric exItemBare 0 11 := by decide

/-- C8 witness: the priority chain evaluated at concrete inputs. -/
theorem C8_sourceId_witness :
    sourceIdGeneric exItemA 0 3 = "a1" ∧
    sourceIdGeneric exItemUrl 5 77 = "abc123" ∧
    generateSourceId "hello world" 2 10 = generateSourceId "hello world" 2 99 ∧
    generateSourceId "hello world" 2 10 =
      "hash_" ++ simpleHash "hello world" ++ "_" ++ toString 2 :=
  ⟨C8_sourceId_priority_chain.1 exItemA 0 3 "a1" rfl (by decide),
   C8_sourceId_priority_chain.2.1 5 77,
   C8_sourceId_priority_chain.2.2.1 "hello world" 2 10 99 (by decide),
   C8_sourceId_priority_chain.2.2.2 "hello world" 2 10 (by decide) (by decide)
     (by decide) (by decide) (by decide)⟩

/-! ## Claim C10: normalization scoping invariant -/

/-- C10: every Mention candidate produced by normalization from a run is
scoped to that run — its tenant id is the run's tenant id, its brand id the
job's brand id, its originating run id the run's id — and its language
defaults to `en` when the raw item (preserved as the metadata
`platform_data`) carries no language. -/
theorem C10_candidate_scoping (p : String → Option String) (now : Nat)
    (data : List ApifyItem) (run : ScraperRun) (job : ScraperJob)
    (m : MentionCandidate)
    (hm : m ∈ transformApifyDataToMentions p now data run job) :
    m.tenant_id = run.tenant_id ∧ m.brand_id = job.brand_id ∧
      m.job_run_id = run.id ∧
      (falsyS m.platform_data.language = true → m.language = "en") := by
  unfold transformApifyDataToMentions at hm
  rw [List.mem_filter] at hm
  obtain ⟨hmem, -⟩ := hm
  rw [List.mem_map] at hmem
  obtain ⟨pr, -, rfl⟩ := hmem
  refine ⟨rfl, rfl, rfl, ?_⟩
  intro hl
  have hproj : (mkMentionCandidate p now run job pr.1 pr.2).language =
      jsOrDefault pr.2.language "en" := rfl
  rw [hproj]
  have hpd : (mkMentionCandidate p now run job pr.1 pr.2).platform_data = pr.2 := rfl
  rw [hpd] at hl
  unfold falsyS at hl
  unfold jsOrDefault
  cases hcase : pr.2.language with
  | none => rfl
  | some s =>
    rw [hcase] at hl
    simp only [beq_iff_eq] at hl
    simp [hl]

/-- C10 witness: the scoping invariant at the concrete review fixture. -/
theorem C10_candidate_scoping_witness :
    exCandReview.tenant_id = exRunReviews.tenant_id ∧
    exCandReview.brand_id = exJobReviews.brand_id ∧
    exCandReview.job_run_id = exRunReviews.id ∧
    (falsyS exCandReview.platform_data.language = true →
      exCandReview.language = "en") :=
  C10_candidate_scoping exParse 5 [exItemReview] exRunReviews exJobReviews
    exCandReview (by decide)

/-! ## Claims C1 and C2: the upsert is not counting-idempotent -/

/-- C1: evaluation at the failing input. Ingesting the same single candidate
twice leaves exactly one Mention row (the uniqueness key holds), but because
the upsert runs with `ignoreDuplicates: false` (merge-duplicates) the second
pass returns the already-present row as inserted: it reports count 1, not 0,
and re-schedules sentiment and tagging for the existing mention id 0 —
against the code's own `duplicatesSkipped` accounting and the spec. -/
theorem C1_second_pass_reports_duplicates_as_inserted :
    isOkE exPass2 = true ∧
    exIngest2.1.mentions.length = 1 ∧
    exIngest2.2 = [Event.mentionsUpserted 1, Event.sentimentScheduled [0],
      Event.taggingScheduled [0], Event.statsUpdated 1 1 1 0] := by decide

/-- C2: evaluation at the failing input: 3 raw items of which one duplicates
the already-ingested id `dup1`. Exactly 2 new Mention rows are created, but
the run counters come out `found=3, processed=3, failed=0` — the upsert
returns the refreshed duplicate as inserted — not `found=3, processed=2,
failed=1` as the claim states. -/
theorem C2_run_counters_count_duplicates :
    isOkE exPassCounters = true ∧
    exIngestCounters.1.runs.map
      (fun r => (r.items_found, r.items_processed, r.items_failed)) =
      [(some 3, some 3, some 0)] ∧
    exIngestCounters.1.mentions.map (fun m => (m.id, m.source_id)) =
      [(0, "dup1"), (1, "a1"), (2, "abc123")] := by decide

/-! ## Claim C4: unknown callback is a no-op -/

/-- C4: a structurally valid callback whose external run handle matches no
stored run returns the `ignored` outcome, raises nothing, and performs no
store write (the store is returned unchanged, with an empty trace). -/
theorem C4_unknown_run_ignored (env : ApifyEnv) (now : Nat)
    (p : WebhookPayload) (s : Store)
    (hval : structurallyValid p = true)
    (hnone : s.runs.filter (fun r => r.apify_run_id == some (jsText p.actorRunId)) = []) :
    handleWebhook env now p s = (.ok "ignored" "Scraper run not found", s, []) := by
  unfold handleWebhook findRunByApifyId
  rw [hval, hnone]
  rfl

/-! ## Claim C6: ordering within one ingestion pass -/

/-- C6 counterexample: on the concrete single-item pass the trace is
`[mentionsUpserted, sentimentScheduled, taggingScheduled, statsUpdated]` —
the enrichment fan-out is scheduled (position 1) before the counter update
(position 3), so the claimed counters-before-fan-out ordering is false. -/
theorem C6_counters_before_fanout_counterexample :
    ¬ countersBeforeFanout exIngest1.2 := by
  intro h
  exact absurd (h 3 1 (by decide) (by decide) (by decide) (by decide)) (by omega)

/-- C6 (amended): within one ingestion pass the Mention rows are persisted
first, then the sentiment/tagging fan-out is scheduled, and the run-counter
update comes last — so mentions are written before the counters, but the
fan-out is scheduled before the counter update, not after it. -/
theorem C6_pass_ordering (env : ApifyEnv) (now : Nat) (run : ScraperRun)
    (job : ScraperJob) (s : Store) (s2 : Store) (tr : List Event)
    (h : processApifyRunData env now run job s = .ok (s2, tr)) :
    ∃ ups scheds stats,
      tr = ups ++ scheds ++ stats ∧
      (∀ e ∈ ups, isUpsertEvent e = true) ∧
      (∀ e ∈ scheds, isSchedEvent e = true) ∧
      (∀ e ∈ stats, isStatsEvent e = true) := by
  unfold processApifyRunData at h
  split at h
  · exact absurd h (by simp)
  · split at h
    · exact absurd h (by simp)
    · split at h
      · rw [Except.ok.injEq, Prod.mk.injEq] at h
        refine ⟨[], [], [], h.2.symm, ?_, ?_, ?_⟩ <;> simp
      · rw [Except.ok.injEq, Prod.mk.injEq] at h
        obtain ⟨hs, htr⟩ := h
        refine ⟨_, _, [_], htr.symm, ?_, ?_, ?_⟩
        · intro e he
          split at he
          · simp at he
          · simp at he; subst he; rfl
        · intro e he
          split at he
          · simp at he
            rcases he with he | he <;> subst he <;> rfl
          · simp at he
        · intro e he
          simp at he; subst he; rfl

/-- C6 witness: the decomposition at the concrete single-item pass. -/
theorem C6_pass_ordering_witness :
    ∃ ups scheds stats,
      exIngest1.2 = ups ++ scheds ++ stats ∧
      (∀ e ∈ ups, isUpsertEvent e = true) ∧
      (∀ e ∈ scheds, isSchedEvent e = true) ∧
      (∀ e ∈ stats, isStatsEvent e = true) :=
  C6_pass_ordering exEnvReviews 5 exRunReviews exJobReviews exStoreReviews
    exIngest1.1 exIngest1.2 (by decide)

/-- C4 witness: a concrete unknown-handle callback against the review
store. -/
theorem C4_unknown_run_ignored_witness :
    handleWebhook exEnvReviews 3 exPayloadUnknown exStoreReviews =
      (.ok "ignored" "Scraper run not found", exStoreReviews, []) :=
  C4_unknown_run_ignored exEnvReviews 3 exPayloadUnknown exStoreReviews
    (by decide) (by decide)

/-! ## C9 lemmas: enrichment batches -/

theorem find_self_of_nodup {ms : List MentionRow} {m : MentionRow}
    (hnd : (ms.map (fun x => x.id)).Nodup) (hm : m ∈ ms) :
    ms.find? (fun x => x.id == m.id) = some m := by
  induction ms with
  | nil => simp at hm
  | cons a l ih =>
    rw [List.map_cons, List.nodup_cons] at hnd
    rcases List.mem_cons.mp hm with rfl | hm2
    · simp [List.find?]
    · have hne : a.id ≠ m.id := by
        intro he
        exact hnd.1 (he ▸ List.mem_map_of_mem (fun x => x.id) hm2)
      rw [List.find?]
      rw [show (a.id == m.id) = false from by simpa using hne]
      exact ih hnd.2 hm2

theorem batch_fold_eq (toA : List MentionRow) (s0 : Store)
    (acc : List SentimentRow) (brs : List (Nat × SentimentResult)) :
    brs.foldl (fun acc2 br =>
      match toA.find? (fun m => m.id == br.1) with
      | some m =>
        let row := mkSentimentRow m br.2
        ({ acc2.1 with sentiments := acc2.1.sentiments ++ [row] }, acc2.2 ++ [row])
      | none => acc2) (s0, acc) =
      ({ s0 with sentiments := s0.sentiments ++ expectedRows toA brs },
       acc ++ expectedRows toA brs) := by
  induction brs generalizing s0 acc with
  | nil => simp [expectedRows]
  | cons br rest ih =>
    rw [List.foldl_cons]
    unfold expectedRows
    cases hfind : toA.find? (fun m => m.id == br.1) with
    | none => rw [ih]; simp
    | some m =>
      dsimp only
      rw [ih]
      simp

theorem expectedRows_map {toA : List MentionRow} {ms2 : List MentionRow}
    (F : MentionRow → SentimentResult)
    (h : ∀ m ∈ ms2, toA.find? (fun x => x.id == m.id) = some m) :
    expectedRows toA (ms2.map (fun m => (m.id, F m))) =
      ms2.map (fun m => mkSentimentRow m (F m)) := by
  induction ms2 with
  | nil => rfl
  | cons a l ih =>
    rw [List.map_cons, List.map_cons]
    unfold expectedRows
    rw [h a (List.mem_cons_self a l)]
    rw [ih (fun m hm => h m (List.mem_cons_of_mem a hm))]
    rfl

theorem batchAnalyzeMentions_eq
    (provider : String → Except String SentimentResult)
    (mentions : List MentionRow) (s : Store)
    (hnone : ∀ m ∈ mentions, findSentimentByMentionId s m.id = none)
    (hnd : (mentions.map (fun m => m.id)).Nodup) :
    batchAnalyzeMentions provider mentions s =
      ({ s with sentiments := s.sentiments ++ sentimentRowsFor provider mentions },
       sentimentRowsFor provider mentions) := by
  have hfil : mentions.filter (fun m => (findSentimentByMentionId s m.id).isNone) =
      mentions := by
    apply List.filter_eq_self.mpr
    intro m hm
    rw [hnone m hm]
    rfl
  unfold batchAnalyzeMentions batchAnalyzeSentiment sentimentRowsFor
  rw [hfil]
  dsimp only
  rw [List.map_map]
  have hcomp : ((fun item => match provider item.2 with
      | .ok r => (item.1, r)
      | .error e => (item.1, fallbackSentiment e)) ∘
      (fun m : MentionRow => (m.id, m.content))) =
      fun m : MentionRow => (m.id, resolveSentiment provider m.content) := by
    funext m
    dsimp only [Function.comp]
    unfold resolveSentiment
    cases hp : provider m.content <;> rfl
  rw [hcomp]
  rw [batch_fold_eq mentions s []]
  rw [expectedRows_map (fun m => resolveSentiment provider m.content)
    (fun m hm => find_self_of_nodup hnd hm)]
  simp


theorem storeMentionTag_tags_shape {tenant : String} {mid : Nat} {r : TagResult}
    {s : Store} {t : TagRow} (ht : t ∈ (storeMentionTag tenant mid r s).tags) :
    t ∈ s.tags ∨ t.mention_id = mid := by
  unfold storeMentionTag at ht
  split at ht
  · rw [List.mem_map] at ht
    obtain ⟨t0, ht0, he⟩ := ht
    by_cases hk : (t0.mention_id == mid && t0.category_id == r.category &&
        t0.intent_id == r.intent) = true
    · rw [if_pos hk] at he
      right
      rw [← he]
    · rw [if_neg hk] at he
      left
      rw [← he]
      exact ht0
  · rw [List.mem_append] at ht
    rcases ht with ht | ht
    · exact Or.inl ht
    · right
      rw [List.mem_singleton] at ht
      rw [ht]

theorem storeMentionTag_preserves_hasTag {tenant : String} {mid : Nat}
    {r : TagResult} {s : Store} {mid0 : Nat} (h : HasTag s mid0) :
    HasTag (storeMentionTag tenant mid r s) mid0 := by
  obtain ⟨t, ht, hid⟩ := h
  unfold storeMentionTag
  split
  · by_cases hk : (t.mention_id == mid && t.category_id == r.category &&
        t.intent_id == r.intent) = true
    · have hmid : mid = mid0 := by
        have := hk
        simp only [Bool.and_eq_true, beq_iff_eq] at this
        rw [← hid, this.1.1]
      refine ⟨_, List.mem_map_of_mem _ ht, ?_⟩
      rw [if_pos hk]
      exact hmid
    · refine ⟨_, List.mem_map_of_mem _ ht, ?_⟩
      rw [if_neg hk]
      exact hid
  · exact ⟨t, List.mem_append_left _ ht, hid⟩

theorem storeMentionTag_adds {tenant : String} {mid : Nat} {r : TagResult}
    {s : Store} : HasTag (storeMentionTag tenant mid r s) mid := by
  unfold storeMentionTag
  split
  · next hany =>
    rw [List.any_eq_true] at hany
    obtain ⟨t0, ht0, hk⟩ := hany
    refine ⟨_, List.mem_map_of_mem _ ht0, ?_⟩
    rw [if_pos hk]
  · exact ⟨_, List.mem_append_right _ (List.mem_singleton_self _), rfl⟩

theorem getMentionTag_hasTag {s : Store} {mid : Nat} {tenant : String}
    {t : TagRow} (h : getMentionTag s mid tenant = some t) : HasTag s mid := by
  unfold getMentionTag at h
  cases hfil : s.tags.filter (fun t => t.mention_id == mid && t.tenant_id == tenant) with
  | nil => rw [hfil] at h; simp at h
  | cons a l =>
    cases l with
    | nil =>
      rw [hfil] at h
      simp at h
      subst h
      have hmem : a ∈ s.tags.filter (fun t => t.mention_id == mid && t.tenant_id == tenant) := by
        rw [hfil]; exact List.mem_singleton_self a
      rw [List.mem_filter] at hmem
      refine ⟨a, hmem.1, ?_⟩
      have := hmem.2
      simp only [Bool.and_eq_true, beq_iff_eq] at this
      exact this.1
    | cons b l2 => rw [hfil] at h; simp at h

theorem bulkTagLoop_no_tag_for_failed (tagger : Nat → Except String TagResult)
    (tenant : String) (mid : Nat) (e : String) (herr : tagger mid = .error e) :
    ∀ (mids : List Nat) (s : Store) (succ fail : Nat),
      (∀ t ∈ s.tags, t.mention_id ≠ mid) →
      ∀ t ∈ (bulkTagLoop tagger tenant false mids s succ fail).2.2.tags,
        t.mention_id ≠ mid := by
  intro mids
  induction mids with
  | nil => intro s succ fail hno; exact hno
  | cons mid2 rest ih =>
    intro s succ fail hno
    unfold bulkTagLoop
    split
    · exact ih s succ fail hno
    · cases htag : tagger mid2 with
      | ok r =>
        apply ih
        intro t ht
        rcases storeMentionTag_tags_shape ht with hin | hmi
        · exact hno t hin
        · rw [hmi]
          intro he
          rw [he] at htag
          rw [herr] at htag
          exact Except.noConfusion htag
      | error e2 => exact ih s succ (fail + 1) hno

theorem bulkTagLoop_preserves_hasTag (tagger : Nat → Except String TagResult)
    (tenant : String) (mid0 : Nat) :
    ∀ (mids : List Nat) (s : Store) (succ fail : Nat), HasTag s mid0 →
      HasTag (bulkTagLoop tagger tenant false mids s succ fail).2.2 mid0 := by
  intro mids
  induction mids with
  | nil => intro s succ fail h; exact h
  | cons mid2 rest ih =>
    intro s succ fail h
    unfold bulkTagLoop
    split
    · exact ih s succ fail h
    · cases htag : tagger mid2 with
      | ok r => exact ih _ (succ + 1) fail (storeMentionTag_preserves_hasTag h)
      | error e2 => exact ih s succ (fail + 1) h

theorem bulkTagLoop_ok_gets_tag (tagger : Nat → Except String TagResult)
    (tenant : String) (mid : Nat) (r : TagResult) (hok : tagger mid = .ok r) :
    ∀ (mids : List Nat) (s : Store) (succ fail : Nat), mid ∈ mids →
      HasTag (bulkTagLoop tagger tenant false mids s succ fail).2.2 mid := by
  intro mids
  induction mids with
  | nil => intro s succ fail h; simp at h
  | cons mid2 rest ih =>
    intro s succ fail hmem
    unfold bulkTagLoop
    rcases List.mem_cons.mp hmem with rfl | hmem2
    · split
      · next hskip =>
        simp only [Bool.not_false, Bool.true_and] at hskip
        rw [Option.isSome_iff_exists] at hskip
        obtain ⟨t, ht⟩ := hskip
        exact bulkTagLoop_preserves_hasTag tagger tenant mid rest s succ fail
          (getMentionTag_hasTag ht)
      · rw [hok]
        exact bulkTagLoop_preserves_hasTag tagger tenant mid rest _ (succ + 1) fail
          storeMentionTag_adds
    · split
      · exact ih s succ fail hmem2
      · cases htag : tagger mid2 with
        | ok r2 => exact ih _ (succ + 1) fail hmem2
        | error e2 => exact ih s succ (fail + 1) hmem2

/-! ## Claim C9: per-item enrichment failure isolation -/

/-- C9 counterexample: five mentions, the provider fails on the third. The
batch completes and rows exist for items 1, 2, 4, 5 — but the failing item 3
(mention id 2) ALSO gets a sentiment row: the caught error is replaced by a
stored neutral fallback (confidence 0.5, reasoning noting the failure),
contradicting "a sentiment row ... none for the failing item". -/
theorem C9_fallback_row_counterexample :
    exBatchOut.1.sentiments.map
      (fun row => (row.mention_id, row.sentiment, row.confidence, row.reasoning)) =
      [(0, "positive", Rat.mk' 9 10, some "ok"),
       (1, "positive", Rat.mk' 9 10, some "ok"),
       (2, "neutral", Rat.mk' 1 2, some "Analysis failed: provider down"),
       (3, "positive", Rat.mk' 9 10, some "ok"),
       (4, "positive", Rat.mk' 9 10, some "ok")] := by decide

/-- C9 (amended): enrichment failures are isolated per item and the batch
always completes. Sentiment: every not-yet-analyzed mention receives exactly
one row — the judgement of the provider where it succeeds, and the neutral
fallback row where it throws (so the failing item gets a fallback row, not
no row). Tagging: an item whose tagging throws gets no tag row while every
successfully tagged item of the batch ends up with one. -/
theorem C9_enrichment_isolation :
    (∀ (provider : String → Except String SentimentResult)
        (mentions : List MentionRow) (s : Store),
      (∀ m ∈ mentions, findSentimentByMentionId s m.id = none) →
      (mentions.map (fun m => m.id)).Nodup →
      batchAnalyzeMentions provider mentions s =
        ({ s with sentiments := s.sentiments ++ sentimentRowsFor provider mentions },
         sentimentRowsFor provider mentions)) ∧
    (∀ (tagger : Nat → Except String TagResult) (mids : List Nat)
        (tenant : String) (s : Store) (mid : Nat) (e : String),
      tagger mid = .error e →
      (∀ t ∈ s.tags, t.mention_id ≠ mid) →
      ∀ t ∈ (bulkTagMentions tagger mids tenant false s).2.2.tags,
        t.mention_id ≠ mid) ∧
    (∀ (tagger : Nat → Except String TagResult) (mids : List Nat)
        (tenant : String) (s : Store) (mid : Nat) (r : TagResult),
      tagger mid = .ok r → mid ∈ mids →
      HasTag (bulkTagMentions tagger mids tenant false s).2.2 mid) := by
  refine ⟨batchAnalyzeMentions_eq, ?_, ?_⟩
  · intro tagger mids tenant s mid e herr hno
    unfold bulkTagMentions
    exact bulkTagLoop_no_tag_for_failed tagger tenant mid e herr mids s 0 0 hno
  · intro tagger mids tenant s mid r hok hmem
    unfold bulkTagMentions
    exact bulkTagLoop_ok_gets_tag tagger tenant mid r hok mids s 0 0 hmem

/-- C9 witness: the five-mention batch with the provider failing on the
third item, and the tag loop with the tagger failing on mention 2. -/
theorem C9_enrichment_isolation_witness :
    (batchAnalyzeMentions exProviderFail3 exFiveMentions exStoreFive =
      ({ exStoreFive with sentiments := exStoreFive.sentiments ++
          sentimentRowsFor exProviderFail3 exFiveMentions },
       sentimentRowsFor exProviderFail3 exFiveMentions)) ∧
    (∀ t ∈ (bulkTagMentions exTaggerFail3 [0, 1, 2, 3, 4] "t1" false
        exStoreFive).2.2.tags, t.mention_id ≠ 2) ∧
    HasTag (bulkTagMentions exTaggerFail3 [0, 1, 2, 3, 4] "t1" false
      exStoreFive).2.2 0 :=
  ⟨C9_enrichment_isolation.1 exProviderFail3 exFiveMentions exStoreFive
      (by decide) (by decide),
   C9_enrichment_isolation.2.1 exTaggerFail3 [0, 1, 2, 3, 4] "t1" exStoreFive 2
      "provider down" (by decide) (by decide),
   C9_enrichment_isolation.2.2 exTaggerFail3 [0, 1, 2, 3, 4] "t1" exStoreFive 0
      { category := "praise", intent := "compliment", priority := "low",
        urgency_score := Rat.mk' 1 10, confidence := Rat.mk' 4 5 }
      (by decide) (by decide)⟩


/-! ## C5 lemmas: the run-status transition system -/

theorem evolves_refl (s : Store) : Evolves s s :=
  ⟨Nat.le_refl _, fun r2 h2 => Or.inr ⟨r2, h2, rfl, Or.inl rfl⟩⟩

theorem evolves_trans {s1 s2 s3 : Store} (h12 : Evolves s1 s2)
    (h23 : Evolves s2 s3) : Evolves s1 s3 := by
  refine ⟨Nat.le_trans h12.1 h23.1, ?_⟩
  intro r3 hr3
  rcases h23.2 r3 hr3 with hge | ⟨r2, hr2, hid23, hst23⟩
  · exact Or.inl (Nat.le_trans h12.1 hge)
  · rcases h12.2 r2 hr2 with hge | ⟨r1, hr1, hid12, hst12⟩
    · exact Or.inl (hid23 ▸ hge)
    · refine Or.inr ⟨r1, hr1, hid23.trans hid12, ?_⟩
      rcases hst23 with hst23 | hterm
      · rcases hst12 with hst12 | hterm
        · exact Or.inl (hst23.trans hst12)
        · exact Or.inr (hst23 ▸ hterm)
      · exact Or.inr hterm

theorem stepOk_refl (s : Store) : StepOk s s :=
  fun hwf => ⟨evolves_refl s, hwf⟩

theorem stepOk_trans {s1 s2 s3 : Store} (h12 : StepOk s1 s2)
    (h23 : StepOk s2 s3) : StepOk s1 s3 := by
  intro hwf
  obtain ⟨he12, hwf2⟩ := h12 hwf
  obtain ⟨he23, hwf3⟩ := h23 hwf2
  exact ⟨evolves_trans he12 he23, hwf3⟩

theorem stepOk_of_runs_eq {s s2 : Store} (hr : s2.runs = s.runs)
    (hn : s2.nextRunId = s.nextRunId) : StepOk s s2 := by
  intro hwf
  constructor
  · refine ⟨hn.ge, ?_⟩
    intro r2 h2
    rw [hr] at h2
    exact Or.inr ⟨r2, h2, rfl, Or.inl rfl⟩
  · constructor
    · intro r h2
      rw [hr] at h2
      rw [hn]
      exact hwf.1 r h2
    · rw [hr]
      exact hwf.2

theorem updateRun_ids {s : Store} {rid : Nat} {f : ScraperRun → ScraperRun}
    (hid : ∀ r, (f r).id = r.id) :
    (updateRun s rid f).runs.map (fun r => r.id) =
      s.runs.map (fun r => r.id) := by
  unfold updateRun
  rw [List.map_map]
  congr 1
  funext r
  dsimp only [Function.comp]
  by_cases h : (r.id == rid) = true
  · rw [if_pos h]
    exact hid r
  · rw [if_neg h]

theorem wf_updateRun {s : Store} {rid : Nat} {f : ScraperRun → ScraperRun}
    (hid : ∀ r, (f r).id = r.id) (hwf : WFStore s) :
    WFStore (updateRun s rid f) := by
  constructor
  · intro r2 h2
    unfold updateRun at h2
    rw [List.mem_map] at h2
    obtain ⟨r, hr, he⟩ := h2
    have : r2.id = r.id := by
      rw [← he]
      by_cases h : (r.id == rid) = true
      · rw [if_pos h]; exact hid r
      · rw [if_neg h]
    rw [this]
    exact hwf.1 r hr
  · rw [updateRun_ids hid]
    exact hwf.2

theorem stepOk_updateRun {s : Store} {rid : Nat} {f : ScraperRun → ScraperRun}
    (hid : ∀ r, (f r).id = r.id)
    (hst : ∀ r, (f r).status = r.status ∨ isTerminal (f r).status = true) :
    StepOk s (updateRun s rid f) := by
  intro hwf
  constructor
  · refine ⟨Nat.le_refl _, ?_⟩
    intro r2 h2
    unfold updateRun at h2
    rw [List.mem_map] at h2
    obtain ⟨r, hr, he⟩ := h2
    by_cases h : (r.id == rid) = true
    · rw [if_pos h] at he
      refine Or.inr ⟨r, hr, ?_, ?_⟩
      · rw [← he]; exact hid r
      · rw [← he]; exact hst r
    · rw [if_neg h] at he
      exact Or.inr ⟨r, hr, by rw [← he], Or.inl (by rw [← he])⟩
  · exact wf_updateRun hid hwf

theorem stepOk_insert {s : Store} {newRun : ScraperRun}
    (hnew : newRun.id = s.nextRunId) :
    StepOk s { s with runs := s.runs ++ [newRun],
                      nextRunId := s.nextRunId + 1 } := by
  intro hwf
  constructor
  · refine ⟨Nat.le_succ _, ?_⟩
    intro r2 h2
    rcases List.mem_append.mp h2 with h2 | h2
    · exact Or.inr ⟨r2, h2, rfl, Or.inl rfl⟩
    · rw [List.mem_singleton] at h2
      subst h2
      exact Or.inl (Nat.le_of_eq hnew.symm)
  · constructor
    · intro r h2
      rcases List.mem_append.mp h2 with h2 | h2
      · exact Nat.lt_succ_of_lt (hwf.1 r h2)
      · rw [List.mem_singleton] at h2
        subst h2
        rw [hnew]
        exact Nat.lt_succ_self _
    · rw [List.map_append]
      rw [List.nodup_append]
      refine ⟨hwf.2, List.nodup_singleton _, ?_⟩
      intro a ha hb
      rw [List.mem_map] at ha
      obtain ⟨r, hr, he⟩ := ha
      rw [List.map_singleton, List.mem_singleton] at hb
      have hlt := hwf.1 r hr
      rw [he, hb, hnew] at hlt
      exact Nat.lt_irrefl _ hlt


theorem stepOk_insert_update {s : Store} {newRun : ScraperRun}
    {f : ScraperRun → ScraperRun}
    (hnew : newRun.id = s.nextRunId) (hid : ∀ r, (f r).id = r.id) :
    StepOk s (updateRun { s with runs := s.runs ++ [newRun],
                                 nextRunId := s.nextRunId + 1 } newRun.id f) := by
  intro hwf
  have hins := stepOk_insert hnew hwf
  obtain ⟨hev1, hwf1⟩ := hins
  constructor
  · refine ⟨Nat.le_succ _, ?_⟩
    intro r2 h2
    unfold updateRun at h2
    rw [List.mem_map] at h2
    obtain ⟨r, hr, he⟩ := h2
    rcases List.mem_append.mp hr with hrold | hrnew
    · have hne : (r.id == newRun.id) = false := by
        have hlt := hwf.1 r hrold
        rw [← hnew] at hlt
        simpa using Nat.ne_of_lt hlt
      rw [if_neg (by rw [hne]; exact Bool.false_ne_true)] at he
      exact Or.inr ⟨r, hrold, by rw [← he], Or.inl (by rw [← he])⟩
    · rw [List.mem_singleton] at hrnew
      subst hrnew
      left
      have hide : r2.id = r.id := by
        rw [← he]
        by_cases h : (r.id == r.id) = true
        · rw [if_pos h]; exact hid r
        · rw [if_neg h]
      rw [hide, hnew]
  · exact wf_updateRun hid hwf1


theorem upsertMentionRows_runs (cs : List MentionCandidate) :
    ∀ s : Store, (upsertMentionRows s cs).1.runs = s.runs ∧
      (upsertMentionRows s cs).1.nextRunId = s.nextRunId := by
  induction cs with
  | nil => intro s; exact ⟨rfl, rfl⟩
  | cons c rest ih =>
    intro s
    unfold upsertMentionRows
    cases hf : s.mentions.find? (fun r => mentionKeyMatches r c) with
    | some r0 =>
      dsimp only
      exact ih _
    | none =>
      dsimp only
      exact ih _

theorem insertMentions_runs (s : Store) (cs : List MentionCandidate) :
    (insertMentions s cs).1.runs = s.runs ∧
      (insertMentions s cs).1.nextRunId = s.nextRunId := by
  unfold insertMentions
  by_cases h : cs.isEmpty = true
  · rw [if_pos h]; exact ⟨rfl, rfl⟩
  · rw [if_neg h]; exact upsertMentionRows_runs cs s

theorem stepOk_processApifyRunData {env : ApifyEnv} {now : Nat}
    {run : ScraperRun} {job : ScraperJob} {s s2 : Store} {tr : List Event}
    (h : processApifyRunData env now run job s = .ok (s2, tr)) :
    StepOk s s2 := by
  unfold processApifyRunData at h
  split at h
  · exact absurd h (by simp)
  · split at h
    · exact absurd h (by simp)
    · split at h
      · rw [Except.ok.injEq, Prod.mk.injEq] at h
        rw [← h.1]
        exact stepOk_refl s
      · rw [Except.ok.injEq, Prod.mk.injEq] at h
        rw [← h.1]
        unfold updateScraperRunStats
        refine stepOk_trans (stepOk_of_runs_eq ?_ ?_)
          (stepOk_updateRun (fun r => rfl) (fun r => Or.inl rfl))
        · exact (insertMentions_runs s _).1
        · exact (insertMentions_runs s _).2

theorem stepOk_handleInstagramPostsCompleted (env : ApifyEnv) (now : Nat)
    (run : ScraperRun) (job : ScraperJob) (s : Store) :
    StepOk s (handleInstagramPostsCompleted env now run job s) := by
  unfold handleInstagramPostsCompleted
  split
  · unfold recordChainError
    exact stepOk_updateRun (fun r => rfl) (fun r => Or.inl rfl)
  · split
    · unfold recordChainError
      exact stepOk_updateRun (fun r => rfl) (fun r => Or.inl rfl)
    · split
      · exact stepOk_refl s
      · dsimp only
        split
        · exact stepOk_refl s
        · split
          · unfold recordChainError
            exact stepOk_updateRun (fun r => rfl) (fun r => Or.inl rfl)
          · exact stepOk_trans (stepOk_insert rfl)
              (stepOk_updateRun (fun r => rfl) (fun r => Or.inl rfl))

theorem stepOk_processCompletedRun (env : ApifyEnv) (now : Nat)
    (run : ScraperRun) (jobOpt : Option ScraperJob) (s : Store) :
    StepOk s (processCompletedRun env now run jobOpt s).1 := by
  unfold processCompletedRun
  split
  · unfold recordProcessingError
    exact stepOk_updateRun (fun r => rfl) (fun r => Or.inl rfl)
  · split
    · exact stepOk_handleInstagramPostsCompleted env now run _ s
    · split
      · next res heq =>
        exact stepOk_trans (stepOk_processApifyRunData heq)
          (stepOk_updateRun (fun r => rfl) (fun r => Or.inl rfl))
      · unfold recordProcessingError
        exact stepOk_updateRun (fun r => rfl) (fun r => Or.inl rfl)

theorem stepOk_handleWebhook (env : ApifyEnv) (now : Nat)
    (p : WebhookPayload) (s : Store) :
    StepOk s (handleWebhook env now p s).2.1 := by
  unfold handleWebhook
  split
  · exact stepOk_refl s
  · split
    · exact stepOk_refl s
    · split
      · dsimp only
        refine stepOk_trans ?_ (stepOk_processCompletedRun env now _ _ _)
        refine stepOk_updateRun ?_ ?_
        · intro r
          rfl
        · intro r
          exact Or.inr rfl
      · split
        · dsimp only
          refine stepOk_updateRun ?_ ?_
          · intro r
            rfl
          · intro r
            exact Or.inr rfl
        · exact stepOk_refl s

theorem stepOk_update_jobs_after {s s2 : Store} (g : ScraperJob → ScraperJob)
    (h : StepOk s s2) : StepOk s { s2 with jobs := s2.jobs.map g } :=
  stepOk_trans h (stepOk_of_runs_eq rfl rfl)

theorem stepOk_triggerJob (start : Except String (String × Option String))
    (w : String) (now jid : Nat) (tenant : String) (s : Store) :
    StepOk s (triggerJob start w now jid tenant s).2 := by
  unfold triggerJob
  split
  · exact stepOk_refl s
  · split
    · exact stepOk_refl s
    · dsimp only
      split
      · dsimp only
        refine stepOk_update_jobs_after _ ?_
        refine stepOk_insert_update ?_ ?_
        · rfl
        · intro r
          rfl
      · dsimp only
        refine stepOk_insert_update ?_ ?_
        · rfl
        · intro r
          rfl

theorem stepOk_applyOp (s : Store) (op : Op) : StepOk s (applyOp s op) := by
  cases op with
  | trigger start w n j t => exact stepOk_triggerJob start w n j t s
  | webhook env n p => exact stepOk_handleWebhook env n p s

theorem stepOk_applyOps (ops : List Op) : ∀ s : Store, StepOk s (applyOps s ops) := by
  induction ops with
  | nil => intro s; exact stepOk_refl s
  | cons op rest ih =>
    intro s
    unfold applyOps
    rw [List.foldl_cons]
    exact stepOk_trans (stepOk_applyOp s op) (ih (applyOp s op))


/-- C5: run status is monotonic: over any sequence of core operations
(trigger, callback handling — chaining included), a run whose status is
`completed` or `failed` in a well-formed store is never moved back to
`running` or `scheduled`: any later row with its id still has a terminal
status. -/
theorem C5_status_monotonic (s : Store) (ops : List Op) (r r2 : ScraperRun)
    (hwf : WFStore s) (hr : r ∈ s.runs) (hterm : isTerminal r.status = true)
    (hr2 : r2 ∈ (applyOps s ops).runs) (hid : r2.id = r.id) :
    isTerminal r2.status = true := by
  obtain ⟨hev, -⟩ := stepOk_applyOps ops s hwf
  rcases hev.2 r2 hr2 with hge | ⟨rr, hrr, hid2, hst⟩
  · exfalso
    have hlt := hwf.1 r hr
    rw [← hid] at hlt
    exact Nat.lt_irrefl _ (Nat.lt_of_lt_of_le hlt hge)
  · have hrr_eq : rr = r := by
      refine List.inj_on_of_nodup_map hwf.2 hrr hr ?_
      rw [← hid2, hid]
    subst hrr_eq
    rcases hst with hst | hst
    · rw [hst]
      exact hterm
    · exact hst

/-- C5 witness: a completed run stays terminal across a trigger of its job
and a duplicate failure callback. -/
theorem C5_status_monotonic_witness :
    WFStore exStoreDone ∧ exRunDone ∈ exStoreDone.runs ∧
    isTerminal exRunDone.status = true ∧
    exRunAfterC5 ∈ (applyOps exStoreDone exOpsC5).runs ∧
    exRunAfterC5.id = exRunDone.id ∧
    isTerminal exRunAfterC5.status = true :=
  ⟨⟨by decide, by decide⟩, by decide, by decide, by decide, by decide,
   C5_status_monotonic exStoreDone exOpsC5 exRunDone exRunAfterC5 ⟨by decide, by decide⟩
     (by decide) (by decide) (by decide) (by decide)⟩

end BrandPulse
